import Mathlib

/-!
Shallow embedding of the search-sessions module (routes.py, dal.py, models.py,
schemas.py): the relational data model, the data-access layer and the HTTP
handlers, together with theorems checking the specification's claims.

Conventions of the embedding:
* machine integers and database ids are `Nat`/`Int`;
* timestamps are abstract `Nat` ticks, `datetime.now()` is an explicit `now`
  argument threaded through the operations;
* SQLAlchemy tables are lists of row structures inside a `DB` state record,
  `INSERT` is appending to the list, autoincrement primary keys are drawn from
  per-table counters;
* fallible handlers return `Except ApiError`, raising `HTTPException` or
  `EntityDoesNotExist` is returning `Except.error` (the surrounding transaction
  is rolled back, so the error branches carry no database state);
* `str` values stay `String`; `Decimal` and `date` values are kept as their
  rendered text, which is all the module ever does with them.
-/

/-! ### Python string comparison

`sorted(..., key=lambda d: (d["address"], d["scope"]))` in
`filters_data_to_string` compares strings by code points and tuples
lexicographically.  `strLt` is that code-point comparison.
-/

/-- Code-point comparison of two characters, as Python compares `str`. -/
def charLtB (a b : Char) : Bool := a.toNat < b.toNat

/-- Lexicographic code-point comparison of two character lists. -/
def strLtB : List Char → List Char → Bool
  | [], [] => false
  | [], _ :: _ => true
  | _ :: _, [] => false
  | a :: as, b :: bs =>
    if charLtB a b then true
    else if charLtB b a then false
    else strLtB as bs

/-- Python `<` on `str`. -/
def strLt (a b : String) : Bool := strLtB a.data b.data

/-! ### Request payloads (schemas.py)

`LocationsRequest` and `FiltersRequest` from schemas.py.  Every optional
pydantic field is an `Option`.  `Decimal` and `date` fields are kept as their
rendered text (the module only serializes and stores them).
-/

/-- `LocationsRequest` (schemas.py): `address`, `radius`, `scope`, all optional. -/
structure LocationData where
  address : Option String
  radius : Option Int
  scope : Option String
deriving DecidableEq, Repr

/-- `FiltersRequest` (schemas.py): vehicle type/status, vehicle count bounds,
delivery date, pay/rate minimums and the list of locations. -/
structure FiltersData where
  vehicle_type : Option (List String)
  vehicle_status : Option String
  min_vehicles_num : Option Int
  max_vehicles_num : Option Int
  delivery_date : Option String
  min_total_pay : Option String
  min_rate : Option String
  locations : List LocationData
deriving DecidableEq, Repr

/-! ### The sort key of `filters_data_to_string` (routes.py lines 35-43)

The Python key is the tuple `(d["address"], d["scope"])`.  Python raises
`TypeError` when one of the two values is `None`; the model totalizes the
comparison by letting `None` compare as the empty string.  Every claim about
the sort only exercises non-null addresses and scopes, where the model and the
code agree.
-/

/-- First component of the Python sort key `(d["address"], d["scope"])`. -/
def keyAddress (l : LocationData) : String := l.address.getD ""

/-- Second component of the Python sort key. -/
def keyScope (l : LocationData) : String := l.scope.getD ""

/-- The sort key of a location, the pair `(address, scope)`. -/
def locKey (l : LocationData) : String × String := (keyAddress l, keyScope l)

/-- Strict lexicographic comparison of two locations by their sort key, as
Python compares the key tuples. -/
def locKeyLt (a b : LocationData) : Bool :=
  strLt (keyAddress a) (keyAddress b) ||
    (keyAddress a == keyAddress b && strLt (keyScope a) (keyScope b))

/-- The non-strict order used to model Python's stable `sorted`: `a` may stay
before `b` whenever `b` is not strictly below `a`. -/
def locKeyLe (a b : LocationData) : Prop := locKeyLt b a = false

instance : DecidableRel locKeyLe := fun _ _ => inferInstanceAs (Decidable (_ = false))

/-- Python's `sorted(locations_data, key=lambda d: (d["address"], d["scope"]))`:
a stable sort by the `(address, scope)` key.  `List.insertionSort` with
`locKeyLe` is stable in the same sense: an element is inserted before the
later-input elements whose key is not strictly smaller. -/
def sortLocations (ls : List LocationData) : List LocationData :=
  List.insertionSort locKeyLe ls

/-! ### Serialization (`str(filters_data_copied)` in routes.py)

The code stores `str()` of the (location-sorted) filters payload as the
session's filter signature.  The model renders the same fields in the same
pydantic field order; the exact punctuation of Python's `repr` is immaterial
to the module, which only ever compares the produced strings for equality.
-/

/-- Python rendering of an optional value: `None` or the rendered value. -/
def renderOpt (f : α → String) : Option α → String
  | none => "None"
  | some a => f a

/-- Rendering of one location dict, fields in pydantic declaration order. -/
def renderLocation (l : LocationData) : String :=
  "(address=" ++ renderOpt id l.address ++
    "; radius=" ++ renderOpt toString l.radius ++
    "; scope=" ++ renderOpt id l.scope ++ ")"

/-- Rendering of the filters dict, fields in pydantic declaration order, the
locations list last (its key is overwritten in place by the code). -/
def renderFilters (fd : FiltersData) : String :=
  "(vehicle_type=" ++ renderOpt (fun ts => "[" ++ String.intercalate "; " ts ++ "]") fd.vehicle_type ++
    "; vehicle_status=" ++ renderOpt id fd.vehicle_status ++
    "; min_vehicles_num=" ++ renderOpt toString fd.min_vehicles_num ++
    "; max_vehicles_num=" ++ renderOpt toString fd.max_vehicles_num ++
    "; delivery_date=" ++ renderOpt id fd.delivery_date ++
    "; min_total_pay=" ++ renderOpt id fd.min_total_pay ++
    "; min_rate=" ++ renderOpt id fd.min_rate ++
    "; locations=[" ++ String.intercalate "; " (fd.locations.map renderLocation) ++ "])"

/-- `filters_data_to_string` (routes.py lines 35-43): copy the filters data,
replace the locations list by the one sorted by `(address, scope)`, and
serialize. -/
def filters_data_to_string (fd : FiltersData) : String :=
  renderFilters { fd with locations := sortLocations fd.locations }

/-! ### The relational schema (models.py)

One row structure per table, one list per table in `DB`.  Autoincrement
primary keys are drawn from per-table `next…Id` counters.
-/

/-- A `search_sessions` row (models.py `SearchSession`). -/
structure SessionRow where
  id : Nat
  dispatcher_id : Option Nat
  created_at : Nat
  updated_at : Nat
  extra_load : Bool
  is_successful : Bool
  reason : Option String
  is_closed : Bool
  type : String
  filters_string : Option String
deriving DecidableEq, Repr

/-- A `filters` row (models.py `Filters`). -/
structure FiltersRow where
  id : Nat
  search_session_id : Option Nat
  vehicle_type : Option (List String)
  vehicle_status : Option String
  min_vehicles_num : Option Int
  max_vehicles_num : Option Int
  delivery_date : Option String
  min_total_pay : Option String
  min_rate : Option String
deriving DecidableEq, Repr

/-- A `locations` row (models.py `Locations`). -/
structure LocationRow where
  id : Nat
  address : Option String
  radius : Option Int
  scope : Option String
  filters_id : Option Nat
deriving DecidableEq, Repr

/-- A `propositions` row (app.propositions.models `Proposition`), restricted to
the columns this module reads: the primary key and the external `internal_id`. -/
structure PropRow where
  id : Nat
  internal_id : Int
deriving DecidableEq, Repr

/-- A `search_sessions_propositions` row (models.py
`SearchSessionsPropositions`): the session↔proposition join table. -/
structure SSPRow where
  id : Nat
  search_session_id : Nat
  proposition_id : Nat
deriving DecidableEq, Repr

/-- A `search_sessions_propositions_events` row (models.py
`SearchSessionsPropositionsEvents`): the (session,proposition)↔event join
table. -/
structure SSPERow where
  id : Nat
  search_sessions_propositions_id : Nat
  event_id : Nat
deriving DecidableEq, Repr

/-- An `events` row (app.events.models `Event`), restricted to the columns
this module reads: the primary key and the event name. -/
structure EventRow where
  id : Nat
  name : String
deriving DecidableEq, Repr

/-- The database state: one list per table plus the autoincrement counters.
The `dispatchers` table is reduced to its list of primary keys, which is all
this module reads of it. -/
structure DB where
  dispatchers : List Nat
  sessions : List SessionRow
  filters : List FiltersRow
  locations : List LocationRow
  propositions : List PropRow
  ssProps : List SSPRow
  sspEvents : List SSPERow
  events : List EventRow
  nextSessionId : Nat
  nextFiltersId : Nat
  nextLocationId : Nat
  nextPropId : Nat
  nextSSPId : Nat
  nextSSPEId : Nat
  nextEventId : Nat
deriving DecidableEq, Repr

/-- The two kinds of error the handlers raise: `HTTPException(status, detail)`
and the custom `EntityDoesNotExist(detail)`. -/
inductive ApiError where
  | httpError (status : Nat) (detail : String)
  | entityDoesNotExist (detail : String)
deriving DecidableEq, Repr

instance {e a : Type _} [DecidableEq e] [DecidableEq a] : DecidableEq (Except e a) :=
  fun x y =>
    match x, y with
    | .ok v, .ok w => if h : v = w then isTrue (by rw [h]) else isFalse (by simp [h])
    | .error v, .error w => if h : v = w then isTrue (by rw [h]) else isFalse (by simp [h])
    | .ok _, .error _ => isFalse (by simp)
    | .error _, .ok _ => isFalse (by simp)

/-! ### Generic DAL helpers

`BaseDAL` (app.db.dal) is not part of this module's sources; only its call
sites are.  Each helper below is modelled at the type it is called with.
-/

/-- Modelled from the spec: `BaseDAL.check_if_exists(entity_id, entity=Dispatcher)`
of the data-access layer ("filter-based lookups"), an `EXISTS` query on the
dispatcher's primary key. -/
def check_if_exists (db : DB) (entity_id : Nat) : Bool :=
  db.dispatchers.contains entity_id

/-- Modelled from the spec: `BaseDAL.get(search_session_id)` ("read
operations"), the session with the given primary key. -/
def get_session (db : DB) (sid : Nat) : Option SessionRow :=
  db.sessions.find? (fun s => s.id == sid)

/-- `SearchSessionsDAL.exist` (dal.py lines 45-49): an `EXISTS` query on the
session's primary key. -/
def session_exists (db : DB) (sid : Nat) : Bool :=
  db.sessions.any (fun s => s.id == sid)

/-- `SearchSessionsDAL.is_session_closed` (dal.py lines 51-54): the scalar of
`SELECT is_closed WHERE id = session_id`, `none` when no row matches. -/
def is_session_closed (db : DB) (sid : Nat) : Option Bool :=
  (db.sessions.find? (fun s => s.id == sid)).map (fun s => s.is_closed)

/-- Modelled from the spec: `BaseDAL.get_by_parameter_values("name", [n],
entity=Event, single=True)` ("filter-based lookups"), the first event whose
name equals `n`. -/
def get_event_by_name (db : DB) (n : String) : Option EventRow :=
  db.events.find? (fun e => e.name == n)

/-- Modelled from the spec: `BaseDAL.get_by_parameter_values("internal_id",
[iid], entity=Proposition, single=True)` ("filter-based lookups"), the first
proposition whose `internal_id` equals `iid`. -/
def get_proposition_by_internal_id (db : DB) (iid : Int) : Option PropRow :=
  db.propositions.find? (fun p => p.internal_id == iid)

/-- Modelled from the spec: `BaseDAL.get_by_list_of_parameters(
["search_sessions_propositions_id", "event_id"], [sspId, eventId],
entity=SearchSessionsPropositionsEvents)` ("filter-based lookups"), all join
rows matching both columns. -/
def get_sspe_rows (db : DB) (sspId eventId : Nat) : List SSPERow :=
  db.sspEvents.filter
    (fun r => r.search_sessions_propositions_id == sspId && r.event_id == eventId)

/-- Modelled from the spec: `BaseDAL.update_by_id(entity_id, data={"extra_load":
v})` ("update operations"), setting the given column on the row with the given
primary key. -/
def update_extra_load (db : DB) (sid : Nat) (v : Bool) : DB :=
  { db with
    sessions := db.sessions.map
      (fun s => if s.id == sid then { s with extra_load := v } else s) }

/-! ### ORM relationship reads (models.py) -/

/-- `SearchSession.proposition_relations`: the `SearchSessionsPropositions`
rows whose `search_session_id` is the session's id. -/
def proposition_relations (db : DB) (sid : Nat) : List SSPRow :=
  db.ssProps.filter (fun r => r.search_session_id == sid)

/-- `Proposition.search_sessions` read as `[i.id for i in p.search_sessions]`:
the ids of the sessions joined to the proposition through
`search_sessions_propositions`. -/
def sessions_of_proposition (db : DB) (pid : Nat) : List Nat :=
  (db.sessions.filter
    (fun s => db.ssProps.any
      (fun r => r.search_session_id == s.id && r.proposition_id == pid))).map
    (fun s => s.id)

/-- `SearchSessionsPropositions.events`: the events joined to the relation row
through `search_sessions_propositions_events`. -/
def events_of_relation (db : DB) (relId : Nat) : List EventRow :=
  db.events.filter
    (fun e => db.sspEvents.any
      (fun r => r.search_sessions_propositions_id == relId && r.event_id == e.id))

/-! ### `SearchSessionsDAL.create` (dal.py lines 20-43) -/

/-- The `data` dict passed to `SearchSessionsDAL.create`.  The route builds it
from `SearchSessionRequest.dict()` plus the computed `filters_string`; the
schema has no propositions field, so `data.pop("propositions", None)` is
always `None` and is not modelled. -/
structure CreateData where
  dispatcher_id : Nat
  created_at : Option Nat
  is_closed : Bool
  type : String
  filters : Option FiltersData
  filters_string : Option String
deriving DecidableEq, Repr

/-- The `Locations` rows built from the input locations list, one row per
input dict, ids drawn consecutively, all owned by the filters row `fid`. -/
def locRowsFrom : List LocationData → Nat → Nat → List LocationRow
  | [], _, _ => []
  | l :: ls, nid, fid =>
    { id := nid, address := l.address, radius := l.radius, scope := l.scope,
      filters_id := some fid } :: locRowsFrom ls (nid + 1) fid

/-- `SearchSessionsDAL.create`: pop the filters data, build the session row
(unset columns take their model defaults), attach one `Filters` row with its
`Locations` rows when filters data is present, and flush.  Returns the new
database and the new session id. -/
def dal_create (db : DB) (now : Nat) (data : CreateData) : DB × Nat :=
  let sid := db.nextSessionId
  let srow : SessionRow :=
    { id := sid
      dispatcher_id := some data.dispatcher_id
      created_at := data.created_at.getD now
      updated_at := now
      extra_load := false
      is_successful := false
      reason := none
      is_closed := data.is_closed
      type := data.type
      filters_string := data.filters_string }
  match data.filters with
  | none =>
    ({ db with sessions := db.sessions ++ [srow], nextSessionId := sid + 1 }, sid)
  | some fd =>
    let fid := db.nextFiltersId
    let frow : FiltersRow :=
      { id := fid
        search_session_id := some sid
        vehicle_type := fd.vehicle_type
        vehicle_status := fd.vehicle_status
        min_vehicles_num := fd.min_vehicles_num
        max_vehicles_num := fd.max_vehicles_num
        delivery_date := fd.delivery_date
        min_total_pay := fd.min_total_pay
        min_rate := fd.min_rate }
    ({ db with
        sessions := db.sessions ++ [srow]
        filters := db.filters ++ [frow]
        locations := db.locations ++ locRowsFrom fd.locations db.nextLocationId fid
        nextSessionId := sid + 1
        nextFiltersId := fid + 1
        nextLocationId := db.nextLocationId + fd.locations.length }, sid)

/-! ### `SearchSessionsDAL.get_by_filters` (dal.py lines 128-149) -/

/-- `get_by_filters`: when `dispatcher_id` is truthy (non-zero) and
`filters_data` is truthy (neither `None` nor empty), all sessions matching
both columns; otherwise the fall-through `None`. -/
def get_by_filters (db : DB) (dispatcher_id : Nat) (filters_data : Option String) :
    Option (List SessionRow) :=
  if dispatcher_id ≠ 0 then
    match filters_data with
    | some fs =>
      if fs ≠ "" then
        some (db.sessions.filter
          (fun s => s.dispatcher_id == some dispatcher_id && s.filters_string == some fs))
      else none
    | none => none
  else none

/-! ### `SearchSessionsDAL.add_propositions` (dal.py lines 56-126) -/

/-- `PropositionRequest` (app.propositions.schemas), restricted to the only
field this module reads of it, the external `internal_id`. -/
structure PropositionRequest where
  internal_id : Int
deriving DecidableEq, Repr

/-- The `search_sessions_propositions` link rows created by appending
propositions to `search_session.propositions`: one row per proposition id,
ids drawn consecutively. -/
def linkRowsFrom : List Nat → Nat → Nat → List SSPRow
  | [], _, _ => []
  | pid :: pids, nid, sid =>
    { id := nid, search_session_id := sid, proposition_id := pid } ::
      linkRowsFrom pids (nid + 1) sid

/-- The `Proposition` rows created by `Proposition.from_list` for the new
input propositions, ids drawn consecutively (modelled at the columns this
module reads). -/
def propRowsFrom : List PropositionRequest → Nat → List PropRow
  | [], _ => []
  | q :: qs, nid => { id := nid, internal_id := q.internal_id } :: propRowsFrom qs (nid + 1)

/-- The `existed_propositions` query of `add_propositions`: the propositions
already in the database whose `internal_id` occurs in the input. -/
def existedProps (db : DB) (props : List PropositionRequest) : List PropRow :=
  db.propositions.filter
    (fun p => (props.map (fun q => q.internal_id)).contains p.internal_id)

/-- The `new_propositions` list of `add_propositions`: the input propositions
whose `internal_id` has no row in the database yet. -/
def newInputProps (db : DB) (props : List PropositionRequest) :
    List PropositionRequest :=
  props.filter
    (fun q => !((existedProps db props).map (fun p => p.internal_id)).contains
      q.internal_id)

/-- The existing propositions that are appended to the session because they
are not related to it yet. -/
def toLinkProps (db : DB) (props : List PropositionRequest) (sessId : Nat) :
    List PropRow :=
  (existedProps db props).filter
    (fun p => !(sessions_of_proposition db p.id).contains sessId)

/-- `SearchSessionsDAL.add_propositions`: fetch the session; partition the
input by whether a proposition with the same `internal_id` already exists in
the database; link the existing ones that are not yet related to this session;
create and link the genuinely new ones; stamp `updated_at`.  When the session
id matches no row the appends are skipped, as in the code. -/
def dal_add_propositions (db : DB) (now : Nat) (props : List PropositionRequest)
    (sid : Nat) : DB :=
  match get_session db sid with
  | none => db
  | some sess =>
    let newRows := propRowsFrom (newInputProps db props) db.nextPropId
    let linkRows := linkRowsFrom ((toLinkProps db props sess.id).map (fun p => p.id))
      db.nextSSPId sess.id
    let newLinks := linkRowsFrom (newRows.map (fun p => p.id))
      (db.nextSSPId + (toLinkProps db props sess.id).length) sess.id
    { db with
        propositions := db.propositions ++ newRows
        ssProps := db.ssProps ++ linkRows ++ newLinks
        sessions := db.sessions.map
          (fun s => if s.id == sess.id then { s with updated_at := now } else s)
        nextPropId := db.nextPropId + newRows.length
        nextSSPId := db.nextSSPId + (toLinkProps db props sess.id).length +
          newRows.length }

/-! ### Route payloads (schemas.py) -/

/-- `SearchSessionRequest` (schemas.py). -/
structure SearchSessionRequest where
  dispatcher_id : Nat
  created_at : Option Nat
  is_closed : Bool
  type : String
  filters : FiltersData
deriving DecidableEq, Repr

/-- `SearchSessionPropositionsRequest` (schemas.py). -/
structure SearchSessionPropositionsRequest where
  propositions : List PropositionRequest
  extra_load : Bool
deriving DecidableEq, Repr

/-- `CloseSearchSessionRequest` (schemas.py). -/
structure CloseSearchSessionRequest where
  is_successful : Bool
  proposition_internal_id : Option Int
  reason : Option String
  is_closed : Bool
deriving DecidableEq, Repr

/-- The event-count fields the details handler attaches to the session before
returning it (`DispatcherSearchSessionsListResponse`, restricted to those
fields and the session id). -/
structure SearchSessionDetails where
  id : Nat
  expanded_event_num : Nat
  interested_event_num : Nat
  call_event_num : Nat
deriving DecidableEq, Repr

/-! ### Route handlers (routes.py) -/

/-- Python truthiness of the optional `proposition_internal_id`: `None` and
`0` are falsy. -/
def optIntTruthy : Option Int → Bool
  | none => false
  | some i => i != 0

/-- The `create` handler (routes.py lines 194-227): reject an unknown
dispatcher; serialize the filters; reject when an active session with the same
dispatcher and filter signature exists; otherwise create. -/
def create (db : DB) (now : Nat) (payload : SearchSessionRequest) :
    Except ApiError (DB × Nat) :=
  if check_if_exists db payload.dispatcher_id then
    let fstr := filters_data_to_string payload.filters
    let dup : Option SessionRow :=
      match get_by_filters db payload.dispatcher_id (some fstr) with
      | some ss => ss.find? (fun s => !s.is_closed)
      | none => none
    match dup with
    | some _ => .error (.httpError 400 "A session with these filters has already been created.")
    | none =>
      .ok (dal_create db now
        { dispatcher_id := payload.dispatcher_id
          created_at := payload.created_at
          is_closed := payload.is_closed
          type := payload.type
          filters := some payload.filters
          filters_string := some fstr })
  else .error (.entityDoesNotExist "Dispatcher does not exist.")

/-- The per-relation event tally of the details handler: `0` when the event
row is absent, otherwise the summed row counts of the pair queries. -/
def event_num_for (db : DB) (relIds : List Nat) (ev : Option EventRow) : Nat :=
  match ev with
  | none => 0
  | some e => (relIds.map (fun i => (get_sspe_rows db i e.id).length)).sum

/-- The `get_details` handler (routes.py lines 74-144): look the session up,
look the three events up by name, and tally the event join rows over the
session's proposition relations. -/
def get_details (db : DB) (sid : Nat) : Except ApiError SearchSessionDetails :=
  match get_session db sid with
  | none => .error (.entityDoesNotExist "Search session not found.")
  | some sess =>
    let relIds := (proposition_relations db sess.id).map (fun r => r.id)
    .ok
      { id := sess.id
        expanded_event_num := event_num_for db relIds (get_event_by_name db "expanded")
        interested_event_num := event_num_for db relIds (get_event_by_name db "interested")
        call_event_num := event_num_for db relIds (get_event_by_name db "call") }

/-- The `add_propositions` handler (routes.py lines 237-281): reject an
unknown session, reject a closed session, update `extra_load`, then delegate
to the DAL. -/
def add_propositions (db : DB) (now : Nat) (sid : Nat)
    (payload : SearchSessionPropositionsRequest) : Except ApiError DB :=
  if session_exists db sid then
    if (is_session_closed db sid).getD false then
      .error (.httpError 400 "Sessions is closed.")
    else
      .ok (dal_add_propositions (update_extra_load db sid payload.extra_load) now
        payload.propositions sid)
  else .error (.entityDoesNotExist "Search session does not exist.")

/-- Modelled from the spec: `BaseDAL.update(search_session, data)` ("update
operations") with `data = payload.dict()` minus `proposition_internal_id`:
sets the remaining payload fields on the session row. -/
def dal_update_close (db : DB) (sid : Nat) (payload : CloseSearchSessionRequest) : DB :=
  { db with
    sessions := db.sessions.map
      (fun s =>
        if s.id == sid then
          { s with
            is_successful := payload.is_successful
            reason := payload.reason
            is_closed := payload.is_closed }
        else s) }

/-- Lines 343-362 of the close handler: look the `contracted` event up (the
relation's loaded event list predates any insert), create the event row on
first use, and add the relation↔event join row unless the relation already
carries this event. -/
def record_contracted_event (db : DB) (relId : Nat) : DB :=
  let relEventIds := (events_of_relation db relId).map (fun e => e.id)
  let found := get_event_by_name db "contracted"
  let db1 : DB :=
    match found with
    | some _ => db
    | none =>
      { db with
        events := db.events ++ [{ id := db.nextEventId, name := "contracted" }]
        nextEventId := db.nextEventId + 1 }
  let eid : Nat :=
    match found with
    | some ev => ev.id
    | none => db.nextEventId
  if !relEventIds.contains eid then
    { db1 with
      sspEvents := db1.sspEvents ++
        [{ id := db1.nextSSPEId
           search_sessions_propositions_id := relId
           event_id := eid }]
      nextSSPEId := db1.nextSSPEId + 1 }
  else db1

/-- The `close_session` handler (routes.py lines 291-367): reject an unknown
or closed session; a successful close with a falsy `proposition_internal_id`
is a 400; a successful close with a truthy one requires the proposition to
exist and to be related to the session, records a `contracted` event for the
relation; finally the session is updated from the payload. -/
def close_session (db : DB) (sid : Nat) (payload : CloseSearchSessionRequest) :
    Except ApiError DB :=
  match get_session db sid with
  | none => .error (.entityDoesNotExist "Search session does not exist.")
  | some _ =>
    if (is_session_closed db sid).getD false then
      .error (.httpError 400 "Sessions is closed.")
    else if payload.is_successful && !optIntTruthy payload.proposition_internal_id then
      .error (.httpError 400 "A successful session needs even one accepted proposition.")
    else if payload.is_successful && optIntTruthy payload.proposition_internal_id then
      match get_proposition_by_internal_id db (payload.proposition_internal_id.getD 0) with
      | none => .error (.entityDoesNotExist "Proposition does not exist.")
      | some prop =>
        match db.ssProps.find?
          (fun r => r.search_session_id == sid && r.proposition_id == prop.id) with
        | none =>
          .error (.entityDoesNotExist "This proposition is not a part of specified search session.")
        | some rel =>
          .ok (dal_update_close (record_contracted_event db rel.id) sid payload)
    else .ok (dal_update_close db sid payload)

/-! ### Database well-formedness

Standard relational sanity conditions: autoincrement counters dominate the
ids already in the tables, primary keys are distinct, and foreign keys
reference existing rows.
-/

/-- Every primary key already allocated is below its table's counter. -/
def IdsFresh (db : DB) : Prop :=
  (∀ s ∈ db.sessions, s.id < db.nextSessionId) ∧
  (∀ f ∈ db.filters, f.id < db.nextFiltersId) ∧
  (∀ l ∈ db.locations, l.id < db.nextLocationId) ∧
  (∀ p ∈ db.propositions, p.id < db.nextPropId) ∧
  (∀ r ∈ db.ssProps, r.id < db.nextSSPId) ∧
  (∀ e ∈ db.sspEvents, e.id < db.nextSSPEId) ∧
  (∀ e ∈ db.events, e.id < db.nextEventId)

/-- Primary keys are pairwise distinct in every table. -/
def IdsNodup (db : DB) : Prop :=
  (db.sessions.map (fun s => s.id)).Nodup ∧
  (db.filters.map (fun f => f.id)).Nodup ∧
  (db.locations.map (fun l => l.id)).Nodup ∧
  (db.propositions.map (fun p => p.id)).Nodup ∧
  (db.ssProps.map (fun r => r.id)).Nodup ∧
  (db.sspEvents.map (fun e => e.id)).Nodup ∧
  (db.events.map (fun e => e.id)).Nodup

/-- Foreign keys reference existing rows (nullable ones may be null). -/
def RefsValid (db : DB) : Prop :=
  (∀ f ∈ db.filters,
    f.search_session_id = none ∨ ∃ s ∈ db.sessions, some s.id = f.search_session_id) ∧
  (∀ l ∈ db.locations,
    l.filters_id = none ∨ ∃ f ∈ db.filters, some f.id = l.filters_id) ∧
  (∀ r ∈ db.ssProps,
    (∃ s ∈ db.sessions, s.id = r.search_session_id) ∧
    (∃ p ∈ db.propositions, p.id = r.proposition_id)) ∧
  (∀ e ∈ db.sspEvents,
    (∃ r ∈ db.ssProps, r.id = e.search_sessions_propositions_id) ∧
    (∃ ev ∈ db.events, ev.id = e.event_id))

/-- A well-formed database state. -/
def WellFormed (db : DB) : Prop :=
  IdsFresh db ∧ IdsNodup db ∧ RefsValid db

instance (db : DB) : Decidable (IdsFresh db) := by
  unfold IdsFresh; infer_instance

instance (db : DB) : Decidable (IdsNodup db) := by
  unfold IdsNodup; infer_instance

instance (db : DB) : Decidable (RefsValid db) := by
  unfold RefsValid; infer_instance

instance (db : DB) : Decidable (WellFormed db) := by
  unfold WellFormed; infer_instance

/-! ### Spec-side definitions

These follow the specification's words, to be compared with what the code
computes.
-/

/-- Following the spec's words for the details claim: the total number of
`SearchSessionsPropositionsEvents` rows that pair any of the session's
proposition-relation ids with the id of the event named `n`, `0` when the
event record does not exist. -/
def spec_event_count (db : DB) (sid : Nat) (n : String) : Nat :=
  match get_event_by_name db n with
  | none => 0
  | some e =>
    (db.sspEvents.filter
      (fun r =>
        ((proposition_relations db sid).map (fun p => p.id)).contains
            r.search_sessions_propositions_id &&
          r.event_id == e.id)).length

/-- Following the spec's words for the join-table claim: every event-history
row associates an existing event with an existing session↔proposition
relation, which in turn references an existing proposition. -/
def EventRowsAttached (db : DB) : Prop :=
  ∀ r ∈ db.sspEvents,
    (∃ e ∈ db.events, e.id = r.event_id) ∧
    ∃ rel ∈ db.ssProps, rel.id = r.search_sessions_propositions_id ∧
      ∃ p ∈ db.propositions, p.id = rel.proposition_id

instance (db : DB) : Decidable (EventRowsAttached db) := by
  unfold EventRowsAttached; infer_instance

/-- Following the spec's words for the locations claim: every location row
references exactly one existing filters row through its `filters_id`. -/
def LocationsOwned (db : DB) : Prop :=
  ∀ l ∈ db.locations,
    (db.filters.filter (fun f => some f.id == l.filters_id)).length = 1

instance (db : DB) : Decidable (LocationsOwned db) := by
  unfold LocationsOwned; infer_instance

/-! ### Concrete states used by the witnesses -/

/-- An all-empty filters payload. -/
def fdEmpty : FiltersData :=
  { vehicle_type := none, vehicle_status := none, min_vehicles_num := none,
    max_vehicles_num := none, delivery_date := none, min_total_pay := none,
    min_rate := none, locations := [] }

/-- Its serialized filter signature. -/
def fstrEmpty : String := filters_data_to_string fdEmpty

/-- The open example session (id 1) of dispatcher 1. -/
def sOpenW : SessionRow :=
  { id := 1, dispatcher_id := some 1, created_at := 0, updated_at := 0,
    extra_load := false, is_successful := false, reason := none,
    is_closed := false, type := "real", filters_string := some fstrEmpty }

/-- The closed example session (id 2) of dispatcher 1. -/
def sClosedW : SessionRow :=
  { id := 2, dispatcher_id := some 1, created_at := 0, updated_at := 0,
    extra_load := false, is_successful := false, reason := none,
    is_closed := true, type := "real", filters_string := none }

/-- A small well-formed database: one dispatcher, an open and a closed
session, a filters row with one location, one proposition linked to the open
session, and one `expanded` event recorded for that relation. -/
def dbW : DB :=
  { dispatchers := [1]
    sessions := [sOpenW, sClosedW]
    filters := [{ id := 1, search_session_id := some 1, vehicle_type := none,
                  vehicle_status := none, min_vehicles_num := none,
                  max_vehicles_num := none, delivery_date := none,
                  min_total_pay := none, min_rate := none }]
    locations := [{ id := 1, address := some "a", radius := some 1,
                    scope := some "s", filters_id := some 1 }]
    propositions := [{ id := 1, internal_id := 10 }]
    ssProps := [{ id := 1, search_session_id := 1, proposition_id := 1 }]
    sspEvents := [{ id := 1, search_sessions_propositions_id := 1, event_id := 1 }]
    events := [{ id := 1, name := "expanded" }, { id := 2, name := "contracted" }]
    nextSessionId := 3
    nextFiltersId := 2
    nextLocationId := 2
    nextPropId := 2
    nextSSPId := 2
    nextSSPEId := 2
    nextEventId := 3 }

/-- A concrete create payload for dispatcher 1. -/
def pcW : SearchSessionRequest :=
  { dispatcher_id := 1, created_at := none, is_closed := false, type := "real",
    filters := fdEmpty }

/-- A concrete add-propositions payload. -/
def plpW : SearchSessionPropositionsRequest :=
  { propositions := [{ internal_id := 11 }], extra_load := false }

/-- A concrete successful close payload for the linked proposition. -/
def plcW : CloseSearchSessionRequest :=
  { is_successful := true, proposition_internal_id := some 10, reason := none,
    is_closed := true }

/-- A filters payload with one location. -/
def fdOneLoc : FiltersData :=
  { vehicle_type := none, vehicle_status := some "active", min_vehicles_num := some 1,
    max_vehicles_num := none, delivery_date := none, min_total_pay := none,
    min_rate := none,
    locations := [{ address := some "addr", radius := some 5, scope := some "city" }] }

/-- A concrete DAL create payload carrying `fdOneLoc`. -/
def cdW : CreateData :=
  { dispatcher_id := 1, created_at := none, is_closed := false, type := "real",
    filters := some fdOneLoc, filters_string := some "sig" }

/-- A copy of the small database whose linked proposition has `internal_id`
zero. -/
def dbZ : DB :=
  { dbW with propositions := [{ id := 1, internal_id := 0 }] }

/-- A successful close naming proposition `internal_id` 0. -/
def plcZ : CloseSearchSessionRequest :=
  { is_successful := true, proposition_internal_id := some 0, reason := none,
    is_closed := true }

/-- The number of join rows linking the relation `relId` to the event `eid`. -/
def linkCount (db : DB) (relId eid : Nat) : Nat :=
  (db.sspEvents.filter
    (fun r => r.search_sessions_propositions_id == relId && r.event_id == eid)).length

/-- The open session of dispatcher 0. -/
def sZeroDisp : SessionRow :=
  { sOpenW with dispatcher_id := some 0 }

/-- A database whose only dispatcher has primary key 0, with one active
session carrying the empty-filters signature. -/
def dbD0 : DB :=
  { dbW with dispatchers := [0], sessions := [sZeroDisp] }

/-- The create payload of dispatcher 0 with the same filters. -/
def pc0 : SearchSessionRequest :=
  { dispatcher_id := 0, created_at := none, is_closed := false, type := "real",
    filters := fdEmpty }

/-- A location with key ("a", "s") and radius 1. -/
def locA : LocationData := { address := some "a", radius := some 1, scope := some "s" }

/-- A location with the same key ("a", "s") but radius 2. -/
def locB : LocationData := { address := some "a", radius := some 2, scope := some "s" }

/-- The empty filters payload with locations `[locA, locB]`. -/
def fdAB : FiltersData := { fdEmpty with locations := [locA, locB] }

/-- The same payload with the locations swapped. -/
def fdBA : FiltersData := { fdEmpty with locations := [locB, locA] }

/-- A payload with two distinct-key locations. -/
def fdTwo : FiltersData :=
  { fdEmpty with
    locations := [{ address := some "b", radius := some 1, scope := some "s" },
                  { address := some "a", radius := some 2, scope := some "s" }] }

/-- The same payload with the locations swapped. -/
def fdTwoSwap : FiltersData :=
  { fdEmpty with
    locations := [{ address := some "a", radius := some 2, scope := some "s" },
                  { address := some "b", radius := some 1, scope := some "s" }] }

theorem charLtB_asymm {a b : Char} (h : charLtB a b = true) : charLtB b a = false := by
  simp only [charLtB, decide_eq_true_eq, decide_eq_false_iff_not] at *
  omega

theorem char_eq_of_not_ltB {a b : Char} (hab : charLtB a b = false)
    (hba : charLtB b a = false) : a = b := by
  simp only [charLtB, decide_eq_false_iff_not] at hab hba
  have hn : a.toNat = b.toNat := by omega
  have := congrArg Char.ofNat hn
  simpa [Char.ofNat_toNat] using this

theorem strLtB_asymm : ∀ {x y : List Char}, strLtB x y = true → strLtB y x = false
  | [], [], h => by simp [strLtB] at h
  | [], _ :: _, _ => by simp [strLtB]
  | _ :: _, [], h => by simp [strLtB] at h
  | a :: as, b :: bs, h => by
    simp only [strLtB] at h ⊢
    by_cases hab : charLtB a b = true
    · simp [hab, charLtB_asymm hab]
    · by_cases hba : charLtB b a = true
      · simp [hab, hba] at h
      · have hab' := eq_false_of_ne_true hab
        have hba' := eq_false_of_ne_true hba
        simp only [hab', hba', Bool.false_eq_true, if_false] at h ⊢
        exact strLtB_asymm h

theorem strLtB_eq_of_not : ∀ {x y : List Char}, strLtB x y = false → strLtB y x = false → x = y
  | [], [], _, _ => rfl
  | [], _ :: _, h, _ => by simp [strLtB] at h
  | _ :: _, [], _, h => by simp [strLtB] at h
  | a :: as, b :: bs, h, h' => by
    simp only [strLtB] at h h'
    by_cases hab : charLtB a b = true
    · simp [hab] at h
    · by_cases hba : charLtB b a = true
      · simp [hba] at h'
      · simp only [eq_false_of_ne_true hab, eq_false_of_ne_true hba, if_false] at h h'
        have hc : a = b := char_eq_of_not_ltB (eq_false_of_ne_true hab) (eq_false_of_ne_true hba)
        rw [hc, strLtB_eq_of_not h h']

theorem strLtB_trans : ∀ {x y z : List Char},
    strLtB x y = true → strLtB y z = true → strLtB x z = true
  | [], [], _, h, _ => by simp [strLtB] at h
  | [], _ :: _, [], _, h => by simp [strLtB] at h
  | [], _ :: _, _ :: _, _, _ => by simp [strLtB]
  | _ :: _, [], _, h, _ => by simp [strLtB] at h
  | _ :: _, _ :: _, [], _, h => by simp [strLtB] at h
  | a :: as, b :: bs, c :: cs, h, h' => by
    simp only [strLtB, charLtB, decide_eq_true_eq] at h h' ⊢
    by_cases h1 : a.toNat < b.toNat
    · by_cases h2 : b.toNat < c.toNat
      · simp [show a.toNat < c.toNat by omega]
      · simp only [if_neg h2] at h'
        by_cases h3 : c.toNat < b.toNat
        · simp [h3] at h'
        · have : b.toNat = c.toNat := by omega
          simp [show a.toNat < c.toNat by omega]
    · simp only [if_neg h1] at h
      by_cases h4 : b.toNat < a.toNat
      · simp [h4] at h
      · have hab : a.toNat = b.toNat := by omega
        by_cases h2 : b.toNat < c.toNat
        · simp [show a.toNat < c.toNat by omega]
        · simp only [if_neg h2] at h'
          by_cases h3 : c.toNat < b.toNat
          · simp [h3] at h'
          · simp only [if_neg h4, if_neg h3] at h h'
            have hbc : b.toNat = c.toNat := by omega
            simp only [show ¬a.toNat < c.toNat by omega, if_false,
              show ¬c.toNat < a.toNat by omega]
            exact strLtB_trans h h'

theorem strLt_asymm {x y : String} (h : strLt x y = true) : strLt y x = false :=
  strLtB_asymm h

theorem strLt_eq_of_not {x y : String} (h : strLt x y = false) (h' : strLt y x = false) :
    x = y :=
  String.ext (strLtB_eq_of_not h h')

theorem strLt_trans {x y z : String} (h : strLt x y = true) (h' : strLt y z = true) :
    strLt x z = true :=
  strLtB_trans h h'

theorem locKeyLt_asymm {a b : LocationData} (h : locKeyLt a b = true) :
    locKeyLt b a = false := by
  simp only [locKeyLt, Bool.or_eq_true, Bool.and_eq_true, beq_iff_eq] at h
  simp only [locKeyLt, Bool.or_eq_false_iff, Bool.and_eq_false_iff]
  rcases h with h | ⟨he, hs⟩
  · refine ⟨strLt_asymm h, ?_⟩
    left
    simp only [beq_eq_false_iff_ne, ne_eq]
    intro hbe
    rw [hbe] at h
    have : strLt (keyAddress a) (keyAddress a) = false :=
      strLt_asymm (x := keyAddress a) (y := keyAddress a) h
    rw [this] at h
    exact Bool.false_ne_true h
  · constructor
    · rw [he]
      by_cases hb : strLt (keyAddress b) (keyAddress b) = true
      · exact strLt_asymm hb
      · exact eq_false_of_ne_true hb
    · right
      exact strLt_asymm hs

theorem locKey_eq_of_not_lt {a b : LocationData} (h : locKeyLt a b = false)
    (h' : locKeyLt b a = false) : locKey a = locKey b := by
  simp only [locKeyLt, Bool.or_eq_false_iff, Bool.and_eq_false_iff] at h h'
  obtain ⟨hab, h2⟩ := h
  obtain ⟨hba, h2'⟩ := h'
  have he : keyAddress a = keyAddress b := strLt_eq_of_not hab hba
  have hs : keyScope a = keyScope b := by
    rcases h2 with h2 | h2
    · simp [he] at h2
    · rcases h2' with h2' | h2'
      · simp [he] at h2'
      · exact strLt_eq_of_not h2 h2'
  simp [locKey, he, hs]

theorem locKeyLt_trans {a b c : LocationData} (h : locKeyLt a b = true)
    (h' : locKeyLt b c = true) : locKeyLt a c = true := by
  simp only [locKeyLt, Bool.or_eq_true, Bool.and_eq_true, beq_iff_eq] at h h' ⊢
  rcases h with h | ⟨he, hs⟩
  · rcases h' with h' | ⟨he', _⟩
    · exact Or.inl (strLt_trans h h')
    · rw [he'] at h
      exact Or.inl h
  · rcases h' with h' | ⟨he', hs'⟩
    · rw [he] at *
      exact Or.inl h'
    · exact Or.inr ⟨he.trans he', strLt_trans hs hs'⟩

instance : IsTotal LocationData locKeyLe :=
  ⟨fun a b => by
    unfold locKeyLe
    by_cases h : locKeyLt b a = true
    · exact Or.inr (locKeyLt_asymm h)
    · exact Or.inl (eq_false_of_ne_true h)⟩

instance : IsTrans LocationData locKeyLe :=
  ⟨fun a b c hab hbc => by
    unfold locKeyLe at *
    cases hca : locKeyLt c a with
    | false => rfl
    | true =>
      by_cases hbc2 : locKeyLt b c = true
      · have : locKeyLt b a = true := locKeyLt_trans hbc2 hca
        rw [this] at hab
        exact absurd hab (by simp)
      · have hkey : locKey b = locKey c :=
          locKey_eq_of_not_lt (eq_false_of_ne_true hbc2) hbc
        have heq : locKeyLt c a = locKeyLt b a := by
          simp only [locKey, Prod.mk.injEq] at hkey
          simp [locKeyLt, ← hkey.1, ← hkey.2]
        rw [heq, hab] at hca
        exact absurd hca (by simp)⟩

theorem renderFilters_ne_empty (fd : FiltersData) : renderFilters fd ≠ "" := by
  unfold renderFilters
  intro h
  have := congrArg String.data h
  rw [String.data_append] at this
  simp at this

theorem filters_data_to_string_ne_empty (fd : FiltersData) :
    filters_data_to_string fd ≠ "" :=
  renderFilters_ne_empty _

/-! ### Generic list lemmas -/

theorem find_by_key_eq {α : Type _} (f : α → Nat) :
    ∀ {l : List α}, (l.map f).Nodup → ∀ {x : α}, x ∈ l →
      l.find? (fun y => f y == f x) = some x
  | [], _, _, hx => absurd hx (List.not_mem_nil _)
  | a :: t, hnd, x, hx => by
    rw [List.map_cons, List.nodup_cons] at hnd
    rcases List.mem_cons.mp hx with hax | hxt
    · subst hax
      simp [List.find?]
    · have hne : f a ≠ f x := by
        intro hc
        exact hnd.1 (hc ▸ List.mem_map_of_mem f hxt)
    
      have : (f a == f x) = false := by simpa using hne
      simp only [List.find?, this]
      exact find_by_key_eq f hnd.2 hxt

theorem length_filter_or_disjoint {α : Type _} (p q : α → Bool) :
    ∀ (l : List α), (∀ x ∈ l, ¬(p x = true ∧ q x = true)) →
      (l.filter (fun x => p x || q x)).length =
        (l.filter p).length + (l.filter q).length
  | [], _ => by simp
  | a :: t, h => by
    have ht := length_filter_or_disjoint p q t (fun x hx => h x (List.mem_cons_of_mem a hx))
    by_cases hp : p a = true
    · have hq : q a = false := by
        cases hqa : q a
        · rfl
        · exact absurd ⟨hp, hqa⟩ (h a (List.mem_cons_self a t))
      simp [List.filter_cons, hp, hq, ht]
      omega
    · have hp' : p a = false := eq_false_of_ne_true hp
      by_cases hq : q a = true
      · simp [List.filter_cons, hp', hq, ht]
        omega
      · have hq' : q a = false := eq_false_of_ne_true hq
        simp [List.filter_cons, hp', hq', ht]

theorem sum_counts_eq_filter_contains (rows : List SSPERow) (eid : Nat) :
    ∀ (ids : List Nat), ids.Nodup →
      ((ids.map (fun i =>
          (rows.filter (fun r => r.search_sessions_propositions_id == i &&
            r.event_id == eid)).length)).sum) =
        (rows.filter (fun r => ids.contains r.search_sessions_propositions_id &&
          r.event_id == eid)).length
  | [], _ => by
    simp [List.filter_eq_nil_iff]
  | i :: t, hnd => by
    rw [List.nodup_cons] at hnd
    have ih := sum_counts_eq_filter_contains rows eid t hnd.2
    rw [List.map_cons, List.sum_cons, ih]
    have hdisj : ∀ r ∈ rows,
        ¬((r.search_sessions_propositions_id == i && r.event_id == eid) = true ∧
          (t.contains r.search_sessions_propositions_id && r.event_id == eid) = true) := by
      intro r _ ⟨h1, h2⟩
      rw [Bool.and_eq_true, beq_iff_eq] at h1
      rw [Bool.and_eq_true] at h2
      rw [h1.1] at h2
      exact hnd.1 (by simpa using h2.1)
    have := length_filter_or_disjoint
      (fun r => r.search_sessions_propositions_id == i && r.event_id == eid)
      (fun r => t.contains r.search_sessions_propositions_id && r.event_id == eid)
      rows hdisj
    rw [← this]
    congr 1
    apply List.filter_congr
    intro r _
    cases hbe : (r.search_sessions_propositions_id == i) <;>
      cases hbt : (t.contains r.search_sessions_propositions_id) <;>
      simp_all [List.contains_cons]

/-! ### Claim C8 -/

/-- Claim C8: for every session whose `is_closed` flag is true, both the
add-propositions handler and the close handler fail with HTTP 400 and detail
"Sessions is closed." and return no new state, so the session's record, its
proposition links and its `extra_load` field are unchanged by these
requests. -/
theorem closed_session_guards (db : DB) (now : Nat)
    (plp : SearchSessionPropositionsRequest) (plc : CloseSearchSessionRequest)
    (s : SessionRow) (hnd : (db.sessions.map (fun r => r.id)).Nodup)
    (hs : s ∈ db.sessions) (hc : s.is_closed = true) :
    add_propositions db now s.id plp = .error (.httpError 400 "Sessions is closed.") ∧
    close_session db s.id plc = .error (.httpError 400 "Sessions is closed.") := by
  have hfind : db.sessions.find? (fun y => y.id == s.id) = some s :=
    find_by_key_eq (fun r => r.id) hnd hs
  have hget : get_session db s.id = some s := hfind
  have hex : session_exists db s.id = true := by
    rw [session_exists, List.any_eq_true]
    exact ⟨s, hs, by simp⟩
  have hclosed : is_session_closed db s.id = some true := by
    rw [is_session_closed, hfind, Option.map_some', hc]
  constructor
  · simp [add_propositions, hex, hclosed]
  · simp [close_session, hget, hclosed]

/-- The closed-session guard theorem applied to the concrete closed session
of `dbW`. -/
theorem closed_session_guards_witness :
    (dbW.sessions.map (fun r => r.id)).Nodup ∧ sClosedW ∈ dbW.sessions ∧
      sClosedW.is_closed = true ∧
      (add_propositions dbW 7 sClosedW.id { propositions := [], extra_load := true } =
          .error (.httpError 400 "Sessions is closed.") ∧
        close_session dbW sClosedW.id
            { is_successful := false, proposition_internal_id := none,
              reason := none, is_closed := true } =
          .error (.httpError 400 "Sessions is closed.")) :=
  ⟨by decide, by decide, by decide,
    closed_session_guards dbW 7 { propositions := [], extra_load := true }
      { is_successful := false, proposition_internal_id := none,
        reason := none, is_closed := true }
      sClosedW (by decide) (by decide) (by decide)⟩

/-! ### Claim C5 -/

theorem rce_some (db : DB) (relId : Nat) (ev : EventRow)
    (hfound : get_event_by_name db "contracted" = some ev) :
    record_contracted_event db relId =
      if !((events_of_relation db relId).map (fun e => e.id)).contains ev.id then
        { db with
          sspEvents := db.sspEvents ++
            [{ id := db.nextSSPEId, search_sessions_propositions_id := relId,
               event_id := ev.id }]
          nextSSPEId := db.nextSSPEId + 1 }
      else db := by
  unfold record_contracted_event
  rw [hfound]

theorem rce_none (db : DB) (relId : Nat)
    (hfound : get_event_by_name db "contracted" = none) :
    record_contracted_event db relId =
      if !((events_of_relation db relId).map (fun e => e.id)).contains db.nextEventId then
        { db with
          events := db.events ++ [{ id := db.nextEventId, name := "contracted" }]
          sspEvents := db.sspEvents ++
            [{ id := db.nextSSPEId, search_sessions_propositions_id := relId,
               event_id := db.nextEventId }]
          nextSSPEId := db.nextSSPEId + 1
          nextEventId := db.nextEventId + 1 }
      else
        { db with
          events := db.events ++ [{ id := db.nextEventId, name := "contracted" }]
          nextEventId := db.nextEventId + 1 } := by
  unfold record_contracted_event
  rw [hfound]

/-- Claim C5: the join tables link sessions to propositions and propositions
to events.  Every event-history row of a state satisfying `EventRowsAttached`
stays attached (event and session↔proposition relation exist, the relation
references an existing proposition) across each write handler: creating a
session, adding propositions and closing a session all preserve the
property. -/
theorem event_history_rows_attached (db : DB) (now sid : Nat)
    (pc : SearchSessionRequest) (plp : SearchSessionPropositionsRequest)
    (plc : CloseSearchSessionRequest) (hAtt : EventRowsAttached db) :
    (∀ db1 x, create db now pc = .ok (db1, x) → EventRowsAttached db1) ∧
    (∀ db1, add_propositions db now sid plp = .ok db1 → EventRowsAttached db1) ∧
    (∀ db1, close_session db sid plc = .ok db1 → EventRowsAttached db1) := by
  refine ⟨?_, ?_, ?_⟩
  · intro db1 x hok
    simp only [create] at hok
    split at hok
    · split at hok
      · exact absurd hok (by simp)
      · rw [Except.ok.injEq] at hok
        simp only [dal_create] at hok
        rw [Prod.mk.injEq] at hok
        obtain ⟨hdb, -⟩ := hok
        subst hdb
        exact hAtt
    · exact absurd hok (by simp)
  · intro db1 hok
    simp only [add_propositions] at hok
    split at hok
    · split at hok
      · exact absurd hok (by simp)
      · rw [Except.ok.injEq] at hok
        subst hok
        rw [dal_add_propositions]
        cases hget : get_session (update_extra_load db sid plp.extra_load) sid with
        | none => exact hAtt
        | some sess =>
          intro r hr
          obtain ⟨⟨e, he, heid⟩, rel, hrel, hrelid, p, hp, hpid⟩ := hAtt r hr
          exact ⟨⟨e, he, heid⟩, rel,
            List.mem_append_left _ (List.mem_append_left _ hrel), hrelid,
            p, List.mem_append_left _ hp, hpid⟩
    · exact absurd hok (by simp)
  · intro db1 hok
    simp only [close_session] at hok
    cases hget : get_session db sid with
    | none => rw [hget] at hok; exact absurd hok (by simp)
    | some s0 =>
      rw [hget] at hok
      simp only [] at hok
      split at hok
      · exact absurd hok (by simp)
      · split at hok
        · exact absurd hok (by simp)
        · split at hok
          · -- successful close with a truthy proposition id
            split at hok
            · exact absurd hok (by simp)
            · rename_i prop hprop
              split at hok
              · exact absurd hok (by simp)
              · rename_i rel hrel
                rw [Except.ok.injEq] at hok
                subst hok
                have hrelmem : rel ∈ db.ssProps := List.mem_of_find?_eq_some hrel
                have hrelprop : rel.proposition_id = prop.id := by
                  have := List.find?_some hrel
                  rw [Bool.and_eq_true, beq_iff_eq, beq_iff_eq] at this
                  exact this.2
                have hpropmem : prop ∈ db.propositions := List.mem_of_find?_eq_some hprop
                have hmain : EventRowsAttached (record_contracted_event db rel.id) := by
                  cases hfound : get_event_by_name db "contracted" with
                  | some ev =>
                    have hevmem : ev ∈ db.events := List.mem_of_find?_eq_some hfound
                    rw [rce_some db rel.id ev hfound]
                    split
                    · intro r hr
                      rcases List.mem_append.mp hr with hold | hnew
                      · obtain ⟨⟨e, he, heid⟩, rel2, hrel2, hrelid2, p, hp, hpid⟩ :=
                          hAtt r hold
                        exact ⟨⟨e, he, heid⟩, rel2, hrel2, hrelid2, p, hp, hpid⟩
                      · rw [List.mem_singleton] at hnew
                        subst hnew
                        exact ⟨⟨ev, hevmem, rfl⟩, rel, hrelmem, rfl,
                          prop, hpropmem, hrelprop.symm⟩
                    · exact hAtt
                  | none =>
                    rw [rce_none db rel.id hfound]
                    split
                    · intro r hr
                      rcases List.mem_append.mp hr with hold | hnew
                      · obtain ⟨⟨e, he, heid⟩, rel2, hrel2, hrelid2, p, hp, hpid⟩ :=
                          hAtt r hold
                        exact ⟨⟨e, List.mem_append_left _ he, heid⟩,
                          rel2, hrel2, hrelid2, p, hp, hpid⟩
                      · rw [List.mem_singleton] at hnew
                        subst hnew
                        exact ⟨⟨{ id := db.nextEventId, name := "contracted" },
                            List.mem_append_right _ (List.mem_singleton.mpr rfl), rfl⟩,
                          rel, hrelmem, rfl, prop, hpropmem, hrelprop.symm⟩
                    · intro r hr
                      obtain ⟨⟨e, he, heid⟩, rel2, hrel2, hrelid2, p, hp, hpid⟩ := hAtt r hr
                      exact ⟨⟨e, List.mem_append_left _ he, heid⟩,
                        rel2, hrel2, hrelid2, p, hp, hpid⟩
                exact fun r hr => hmain r hr
          · rw [Except.ok.injEq] at hok
            subst hok
            exact hAtt

/-- The attachment-preservation theorem applied to the concrete state `dbW`. -/
theorem event_history_rows_attached_witness :
    EventRowsAttached dbW ∧
      ((∀ db1 x, create dbW 7 pcW = .ok (db1, x) → EventRowsAttached db1) ∧
        (∀ db1, add_propositions dbW 7 1 plpW = .ok db1 → EventRowsAttached db1) ∧
        (∀ db1, close_session dbW 1 plcW = .ok db1 → EventRowsAttached db1)) :=
  ⟨by decide, event_history_rows_attached dbW 7 1 pcW plpW plcW (by decide)⟩

/-! ### Claim C7 -/

theorem locRowsFrom_filters_id :
    ∀ {ls : List LocationData} {n fid : Nat} {r : LocationRow},
      r ∈ locRowsFrom ls n fid → r.filters_id = some fid
  | [], _, _, _, hr => absurd hr (List.not_mem_nil _)
  | l :: ls, n, fid, r, hr => by
    rw [locRowsFrom] at hr
    rcases List.mem_cons.mp hr with h | h
    · rw [h]
    · exact locRowsFrom_filters_id h

theorem rce_locations_filters (db : DB) (relId : Nat) :
    (record_contracted_event db relId).locations = db.locations ∧
    (record_contracted_event db relId).filters = db.filters := by
  cases hfound : get_event_by_name db "contracted" with
  | some ev => rw [rce_some db relId ev hfound]; split <;> exact ⟨rfl, rfl⟩
  | none => rw [rce_none db relId hfound]; split <;> exact ⟨rfl, rfl⟩

/-- Claim C7: every `Locations` record belongs to one `Filters` record: in a
well-formed state where every location's `filters_id` references exactly one
existing filters row, the property still holds after any of the write
handlers (session creation being the only operation that inserts locations,
each referencing the one filters row created alongside it). -/
theorem locations_reference_one_filters (db : DB) (now sid : Nat)
    (pc : SearchSessionRequest) (plp : SearchSessionPropositionsRequest)
    (plc : CloseSearchSessionRequest) (hWF : WellFormed db)
    (hOwn : LocationsOwned db) :
    (∀ db1 x, create db now pc = .ok (db1, x) → LocationsOwned db1) ∧
    (∀ db1, add_propositions db now sid plp = .ok db1 → LocationsOwned db1) ∧
    (∀ db1, close_session db sid plc = .ok db1 → LocationsOwned db1) := by
  obtain ⟨⟨-, hFiltFresh, -⟩, -, -⟩ := hWF
  refine ⟨?_, ?_, ?_⟩
  · intro db1 x hok
    simp only [create] at hok
    split at hok
    · split at hok
      · exact absurd hok (by simp)
      · rw [Except.ok.injEq] at hok
        simp only [dal_create] at hok
        rw [Prod.mk.injEq] at hok
        obtain ⟨hdb, -⟩ := hok
        subst hdb
        intro l hl
        rcases List.mem_append.mp hl with hold | hnew
        · -- an old location: its unique owner is still the unique owner
          have h1 := hOwn l hold
          rw [List.filter_append, List.length_append, h1]
          have hnomatch :
              (List.filter (fun f => some f.id == l.filters_id)
                [({ id := db.nextFiltersId, search_session_id := some db.nextSessionId,
                    vehicle_type := pc.filters.vehicle_type,
                    vehicle_status := pc.filters.vehicle_status,
                    min_vehicles_num := pc.filters.min_vehicles_num,
                    max_vehicles_num := pc.filters.max_vehicles_num,
                    delivery_date := pc.filters.delivery_date,
                    min_total_pay := pc.filters.min_total_pay,
                    min_rate := pc.filters.min_rate } : FiltersRow)]).length = 0 := by
            rw [List.length_eq_zero, List.filter_eq_nil_iff]
            intro f hf
            rw [List.mem_singleton] at hf
            subst hf
            obtain ⟨g, hgl⟩ := List.length_eq_one.mp (hOwn l hold)
            have hgmem : g ∈ db.filters ∧ (some g.id == l.filters_id) = true :=
              List.mem_filter.mp (hgl ▸ List.mem_singleton.mpr rfl)
            have hglt : g.id < db.nextFiltersId := hFiltFresh g hgmem.1
            rw [beq_iff_eq] at hgmem
            simp only [beq_iff_eq, ← hgmem.2, Option.some_inj]
            omega
          omega
        · -- a new location: it references the new filters row, and only it
          have hfid : l.filters_id = some db.nextFiltersId := locRowsFrom_filters_id hnew
          rw [List.filter_append, List.length_append]
          have hold0 :
              (List.filter (fun f => some f.id == l.filters_id) db.filters).length = 0 := by
            rw [List.length_eq_zero, List.filter_eq_nil_iff]
            intro f hf
            have := hFiltFresh f hf
            rw [hfid]
            simp only [beq_iff_eq, Option.some_inj]
            omega
          rw [hold0, hfid]
          simp
    · exact absurd hok (by simp)
  · intro db1 hok
    simp only [add_propositions] at hok
    split at hok
    · split at hok
      · exact absurd hok (by simp)
      · rw [Except.ok.injEq] at hok
        subst hok
        rw [dal_add_propositions]
        cases hget : get_session (update_extra_load db sid plp.extra_load) sid with
        | none => exact hOwn
        | some sess => exact fun l hl => hOwn l hl
    · exact absurd hok (by simp)
  · intro db1 hok
    simp only [close_session] at hok
    cases hget : get_session db sid with
    | none => rw [hget] at hok; exact absurd hok (by simp)
    | some s0 =>
      rw [hget] at hok
      simp only [] at hok
      split at hok
      · exact absurd hok (by simp)
      · split at hok
        · exact absurd hok (by simp)
        · split at hok
          · split at hok
            · exact absurd hok (by simp)
            · rename_i prop hprop
              split at hok
              · exact absurd hok (by simp)
              · rename_i rel hrel
                rw [Except.ok.injEq] at hok
                subst hok
                obtain ⟨hloc, hfil⟩ := rce_locations_filters db rel.id
                intro l hl
                have hl' : l ∈ db.locations := by
                  have : l ∈ (record_contracted_event db rel.id).locations := hl
                  rw [hloc] at this
                  exact this
                have := hOwn l hl'
                calc (List.filter (fun f => some f.id == l.filters_id)
                        (dal_update_close (record_contracted_event db rel.id) sid plc).filters).length
                    = (List.filter (fun f => some f.id == l.filters_id)
                        (record_contracted_event db rel.id).filters).length := rfl
                  _ = (List.filter (fun f => some f.id == l.filters_id) db.filters).length := by
                      rw [hfil]
                  _ = 1 := this
          · rw [Except.ok.injEq] at hok
            subst hok
            exact fun l hl => hOwn l hl

/-- The locations-ownership theorem applied to the concrete state `dbW`. -/
theorem locations_reference_one_filters_witness :
    WellFormed dbW ∧ LocationsOwned dbW ∧
      ((∀ db1 x, create dbW 7 pcW = .ok (db1, x) → LocationsOwned db1) ∧
        (∀ db1, add_propositions dbW 7 1 plpW = .ok db1 → LocationsOwned db1) ∧
        (∀ db1, close_session dbW 1 plcW = .ok db1 → LocationsOwned db1)) :=
  ⟨by decide, by decide,
    locations_reference_one_filters dbW 7 1 pcW plpW plcW (by decide) (by decide)⟩

/-! ### Claim C6 -/

theorem locRowsFrom_map_fields :
    ∀ (ls : List LocationData) (n fid : Nat),
      (locRowsFrom ls n fid).map (fun l => (l.address, l.radius, l.scope)) =
        ls.map (fun l => (l.address, l.radius, l.scope))
  | [], _, _ => rfl
  | l :: ls, n, fid => by
    rw [locRowsFrom, List.map_cons, List.map_cons, locRowsFrom_map_fields ls (n + 1) fid]

/-- Claim C6: a create call whose data carries a filters object with `n`
locations attaches exactly one `Filters` row to the new session, carrying the
given filter fields, and that row owns exactly the `n` `Locations` rows built
from the input locations (same fields, same order); without a filters object
no `Filters` row references the new session. -/
theorem create_attaches_filters_and_locations (db : DB) (now : Nat) (data : CreateData)
    (hWF : WellFormed db) :
    (∀ fd, data.filters = some fd →
      ((dal_create db now data).1.filters =
          db.filters ++
            [{ id := db.nextFiltersId
               search_session_id := some (dal_create db now data).2
               vehicle_type := fd.vehicle_type
               vehicle_status := fd.vehicle_status
               min_vehicles_num := fd.min_vehicles_num
               max_vehicles_num := fd.max_vehicles_num
               delivery_date := fd.delivery_date
               min_total_pay := fd.min_total_pay
               min_rate := fd.min_rate }]) ∧
      ((dal_create db now data).1.filters.filter
          (fun f => f.search_session_id == some (dal_create db now data).2)).length = 1 ∧
      ((dal_create db now data).1.locations.filter
          (fun l => l.filters_id == some db.nextFiltersId)).map
          (fun l => (l.address, l.radius, l.scope)) =
        fd.locations.map (fun l => (l.address, l.radius, l.scope))) ∧
    (data.filters = none →
      (dal_create db now data).1.filters = db.filters ∧
      ((dal_create db now data).1.filters.filter
          (fun f => f.search_session_id == some (dal_create db now data).2)).length = 0) := by
  obtain ⟨⟨hSessFresh, hFiltFresh, -⟩, -, hRefFilt, hRefLoc, -⟩ := hWF
  have hOldFilt :
      db.filters.filter (fun f => f.search_session_id == some db.nextSessionId) = [] := by
    rw [List.filter_eq_nil_iff]
    intro f hf
    rcases hRefFilt f hf with hn | ⟨s, hs, hsid⟩
    · simp [hn]
    · have := hSessFresh s hs
      rw [← hsid]
      simp only [beq_iff_eq, Option.some_inj]
      omega
  have hOldLoc :
      db.locations.filter (fun l => l.filters_id == some db.nextFiltersId) = [] := by
    rw [List.filter_eq_nil_iff]
    intro l hl
    rcases hRefLoc l hl with hn | ⟨f, hf, hfid⟩
    · simp [hn]
    · have := hFiltFresh f hf
      rw [← hfid]
      simp only [beq_iff_eq, Option.some_inj]
      omega
  constructor
  · intro fd hfd
    simp only [dal_create, hfd]
    refine ⟨trivial, ?_, ?_⟩
    · rw [List.filter_append, List.length_append, hOldFilt]
      simp
    · rw [List.filter_append, hOldLoc, List.nil_append]
      have hall :
          (locRowsFrom fd.locations db.nextLocationId db.nextFiltersId).filter
            (fun l => l.filters_id == some db.nextFiltersId) =
          locRowsFrom fd.locations db.nextLocationId db.nextFiltersId := by
        rw [List.filter_eq_self]
        intro r hr
        rw [locRowsFrom_filters_id hr]
        simp
      rw [hall, locRowsFrom_map_fields]
  · intro hfd
    simp only [dal_create, hfd]
    refine ⟨trivial, ?_⟩
    rw [hOldFilt]
    rfl

/-- The filters-attachment theorem applied to `dbW` and `cdW`. -/
theorem create_attaches_filters_and_locations_witness :
    WellFormed dbW ∧
      ((∀ fd, cdW.filters = some fd →
        ((dal_create dbW 7 cdW).1.filters =
            dbW.filters ++
              [{ id := dbW.nextFiltersId
                 search_session_id := some (dal_create dbW 7 cdW).2
                 vehicle_type := fd.vehicle_type
                 vehicle_status := fd.vehicle_status
                 min_vehicles_num := fd.min_vehicles_num
                 max_vehicles_num := fd.max_vehicles_num
                 delivery_date := fd.delivery_date
                 min_total_pay := fd.min_total_pay
                 min_rate := fd.min_rate }]) ∧
        ((dal_create dbW 7 cdW).1.filters.filter
            (fun f => f.search_session_id == some (dal_create dbW 7 cdW).2)).length = 1 ∧
        ((dal_create dbW 7 cdW).1.locations.filter
            (fun l => l.filters_id == some dbW.nextFiltersId)).map
            (fun l => (l.address, l.radius, l.scope)) =
          fd.locations.map (fun l => (l.address, l.radius, l.scope))) ∧
      (cdW.filters = none →
        (dal_create dbW 7 cdW).1.filters = dbW.filters ∧
        ((dal_create dbW 7 cdW).1.filters.filter
            (fun f => f.search_session_id == some (dal_create dbW 7 cdW).2)).length = 0)) :=
  ⟨by decide, create_attaches_filters_and_locations dbW 7 cdW (by decide)⟩

/-! ### Claim C3 -/

theorem event_num_for_eq_spec (db : DB) (sid : Nat)
    (hnd : (db.ssProps.map (fun r => r.id)).Nodup) (n : String) :
    event_num_for db ((proposition_relations db sid).map (fun r => r.id))
      (get_event_by_name db n) = spec_event_count db sid n := by
  cases hev : get_event_by_name db n with
  | none => simp [event_num_for, spec_event_count, hev]
  | some e =>
    simp only [event_num_for, spec_event_count, hev, get_sspe_rows]
    have hsub :
        ((proposition_relations db sid).map (fun r => r.id)).Sublist
          (db.ssProps.map (fun r => r.id)) := by
      unfold proposition_relations
      exact List.Sublist.map _ (List.filter_sublist _)
    exact sum_counts_eq_filter_contains db.sspEvents e.id _ (hnd.sublist hsub)

/-- Claim C3: for every existing session the details handler returns
`expanded_event_num`, `interested_event_num` and `call_event_num` equal to the
total number of `SearchSessionsPropositionsEvents` rows pairing any of the
session's proposition-relation ids with the id of the event named
"expanded", "interested" and "call" respectively, and each count is `0` when
the event record or the session's proposition relations do not exist. -/
theorem details_event_counts (db : DB) (sid : Nat) (s : SessionRow)
    (hnd : (db.ssProps.map (fun r => r.id)).Nodup)
    (hs : get_session db sid = some s) :
    get_details db sid = .ok
      { id := s.id
        expanded_event_num := spec_event_count db s.id "expanded"
        interested_event_num := spec_event_count db s.id "interested"
        call_event_num := spec_event_count db s.id "call" } ∧
    (get_event_by_name db "expanded" = none → spec_event_count db s.id "expanded" = 0) ∧
    (get_event_by_name db "interested" = none →
      spec_event_count db s.id "interested" = 0) ∧
    (get_event_by_name db "call" = none → spec_event_count db s.id "call" = 0) ∧
    (proposition_relations db s.id = [] →
      spec_event_count db s.id "expanded" = 0 ∧
      spec_event_count db s.id "interested" = 0 ∧
      spec_event_count db s.id "call" = 0) := by
  refine ⟨?_, ?_, ?_, ?_, ?_⟩
  · simp only [get_details, hs]
    rw [event_num_for_eq_spec db s.id hnd "expanded",
      event_num_for_eq_spec db s.id hnd "interested",
      event_num_for_eq_spec db s.id hnd "call"]
  · intro h; simp [spec_event_count, h]
  · intro h; simp [spec_event_count, h]
  · intro h; simp [spec_event_count, h]
  · intro h
    have hz : ∀ n : String, spec_event_count db s.id n = 0 := by
      intro n
      simp only [spec_event_count]
      cases hev : get_event_by_name db n with
      | none => rfl
      | some e => simp [h]
    exact ⟨hz "expanded", hz "interested", hz "call"⟩

set_option maxRecDepth 100000 in
/-- The details-count theorem applied to `dbW` and its open session. -/
theorem details_event_counts_witness :
    (dbW.ssProps.map (fun r => r.id)).Nodup ∧ get_session dbW 1 = some sOpenW ∧
      (get_details dbW 1 = .ok
        { id := sOpenW.id
          expanded_event_num := spec_event_count dbW sOpenW.id "expanded"
          interested_event_num := spec_event_count dbW sOpenW.id "interested"
          call_event_num := spec_event_count dbW sOpenW.id "call" } ∧
      (get_event_by_name dbW "expanded" = none →
        spec_event_count dbW sOpenW.id "expanded" = 0) ∧
      (get_event_by_name dbW "interested" = none →
        spec_event_count dbW sOpenW.id "interested" = 0) ∧
      (get_event_by_name dbW "call" = none → spec_event_count dbW sOpenW.id "call" = 0) ∧
      (proposition_relations dbW sOpenW.id = [] →
        spec_event_count dbW sOpenW.id "expanded" = 0 ∧
        spec_event_count dbW sOpenW.id "interested" = 0 ∧
        spec_event_count dbW sOpenW.id "call" = 0)) :=
  ⟨by decide, by decide, details_event_counts dbW 1 sOpenW (by decide) (by decide)⟩

/-! ### Claim C2 -/

theorem rce_sessions (db : DB) (relId : Nat) :
    (record_contracted_event db relId).sessions = db.sessions := by
  cases hfound : get_event_by_name db "contracted" with
  | some ev => rw [rce_some db relId ev hfound]; split <;> rfl
  | none => rw [rce_none db relId hfound]; split <;> rfl

/-- Claim C2 (amended): for a close request on an existing open session with
`is_successful` true, a `proposition_internal_id` that is absent — or zero,
which the handler's truthiness test treats as absent — raises HTTP 400 with
detail "A successful session needs even one accepted proposition."; a nonzero
id must name an existing proposition (else `EntityDoesNotExist`) that is
related to the session (else `EntityDoesNotExist`), and only then is the
session updated as successful. -/
theorem close_successful_requires_proposition (db : DB) (sid : Nat) (s : SessionRow)
    (payload : CloseSearchSessionRequest)
    (hs : get_session db sid = some s) (hopen : s.is_closed = false)
    (hsucc : payload.is_successful = true) :
    ((payload.proposition_internal_id = none ∨ payload.proposition_internal_id = some 0) →
      close_session db sid payload =
        .error (.httpError 400
          "A successful session needs even one accepted proposition.")) ∧
    (∀ i, payload.proposition_internal_id = some i → i ≠ 0 →
      (get_proposition_by_internal_id db i = none →
        close_session db sid payload =
          .error (.entityDoesNotExist "Proposition does not exist.")) ∧
      (∀ prop, get_proposition_by_internal_id db i = some prop →
        (db.ssProps.find?
            (fun r => r.search_session_id == sid && r.proposition_id == prop.id) = none →
          close_session db sid payload =
            .error (.entityDoesNotExist
              "This proposition is not a part of specified search session.")) ∧
        (∀ rel, db.ssProps.find?
            (fun r => r.search_session_id == sid && r.proposition_id == prop.id) =
              some rel →
          ∃ db1, close_session db sid payload = .ok db1 ∧
            ∃ s1 ∈ db1.sessions, s1.id = sid ∧ s1.is_successful = true))) := by
  have hsid : s.id = sid := by
    have := List.find?_some hs
    rwa [beq_iff_eq] at this
  have hcl : is_session_closed db sid = some false := by
    rw [is_session_closed]
    rw [show db.sessions.find? (fun r => r.id == sid) = some s from hs]
    rw [Option.map_some', hopen]
  constructor
  · intro hpid
    have htr : optIntTruthy payload.proposition_internal_id = false := by
      rcases hpid with h | h <;> simp [optIntTruthy, h]
    simp [close_session, hs, hcl, hsucc, htr]
  · intro i hpid hnz
    have htr : optIntTruthy payload.proposition_internal_id = true := by
      simp [optIntTruthy, hpid, hnz]
    have hgetd : payload.proposition_internal_id.getD 0 = i := by rw [hpid]; rfl
    refine ⟨?_, ?_⟩
    · intro hnone
      simp [close_session, hs, hcl, hsucc, htr, hgetd, hnone]
    · intro prop hprop
      refine ⟨?_, ?_⟩
      · intro hnorel
        simp [close_session, hs, hcl, hsucc, htr, hgetd, hprop, hnorel]
      · intro rel hrel
        refine ⟨dal_update_close (record_contracted_event db rel.id) sid payload, ?_, ?_⟩
        · simp [close_session, hs, hcl, hsucc, htr, hgetd, hprop, hrel]
        · have hmem : s ∈ (record_contracted_event db rel.id).sessions := by
            rw [rce_sessions]
            exact List.mem_of_find?_eq_some hs
          have hbeq : (s.id == sid) = true := by rw [hsid]; exact beq_self_eq_true sid
          refine ⟨(fun r : SessionRow =>
              if r.id == sid then
                { r with is_successful := payload.is_successful, reason := payload.reason, is_closed := payload.is_closed }
              else r) s, ?_, ?_, ?_⟩
          · rw [dal_update_close]
            exact List.mem_map_of_mem _ hmem
          · simp [hbeq, hsid]
          · simp [hbeq, hsucc]

set_option maxRecDepth 100000 in
/-- Claim C2 counterexample: `proposition_internal_id = 0` is given and names
an existing proposition linked to the open session, yet the handler raises
HTTP 400 "A successful session needs even one accepted proposition." instead
of accepting the close (or raising `EntityDoesNotExist`): Python truthiness
treats the given id 0 as absent. -/
theorem close_zero_internal_id_counterexample :
    (∃ p ∈ dbZ.propositions, p.internal_id = 0 ∧
      ∃ r ∈ dbZ.ssProps, r.search_session_id = 1 ∧ r.proposition_id = p.id) ∧
    (∃ s ∈ dbZ.sessions, s.id = 1 ∧ s.is_closed = false) ∧
    close_session dbZ 1 plcZ =
      .error (.httpError 400
        "A successful session needs even one accepted proposition.") := by
  refine ⟨?_, ?_, ?_⟩ <;> decide

set_option maxRecDepth 100000 in
/-- The amended close theorem applied to `dbW`, its open session and the
successful close payload naming the linked proposition 10. -/
theorem close_successful_requires_proposition_witness :
    get_session dbW 1 = some sOpenW ∧ sOpenW.is_closed = false ∧
      plcW.is_successful = true ∧
      (((plcW.proposition_internal_id = none ∨
          plcW.proposition_internal_id = some 0) →
        close_session dbW 1 plcW =
          .error (.httpError 400
            "A successful session needs even one accepted proposition.")) ∧
      (∀ i, plcW.proposition_internal_id = some i → i ≠ 0 →
        (get_proposition_by_internal_id dbW i = none →
          close_session dbW 1 plcW =
            .error (.entityDoesNotExist "Proposition does not exist.")) ∧
        (∀ prop, get_proposition_by_internal_id dbW i = some prop →
          (dbW.ssProps.find?
              (fun r => r.search_session_id == 1 && r.proposition_id == prop.id) = none →
            close_session dbW 1 plcW =
              .error (.entityDoesNotExist
                "This proposition is not a part of specified search session.")) ∧
          (∀ rel, dbW.ssProps.find?
              (fun r => r.search_session_id == 1 && r.proposition_id == prop.id) =
                some rel →
            ∃ db1, close_session dbW 1 plcW = .ok db1 ∧
              ∃ s1 ∈ db1.sessions, s1.id = 1 ∧ s1.is_successful = true)))) :=
  ⟨by decide, by decide, by decide,
    close_successful_requires_proposition dbW 1 sOpenW plcW (by decide) (by decide)
      (by decide)⟩

/-! ### Claim C4 -/

theorem linkCount_ne_zero_iff (db : DB) (relId eid : Nat) :
    linkCount db relId eid ≠ 0 ↔
      ∃ r ∈ db.sspEvents,
        r.search_sessions_propositions_id = relId ∧ r.event_id = eid := by
  rw [linkCount, Ne, List.length_eq_zero, List.filter_eq_nil_iff]
  constructor
  · intro h
    push_neg at h
    obtain ⟨r, hrmem, hrp⟩ := h
    rw [Bool.and_eq_true, beq_iff_eq, beq_iff_eq] at hrp
    exact ⟨r, hrmem, hrp⟩
  · intro ⟨r, hrmem, h1, h2⟩ hall
    exact hall r hrmem (by simp [h1, h2])

theorem contains_relEventIds_imp {db : DB} {relId eid : Nat}
    (h : ((events_of_relation db relId).map (fun e => e.id)).contains eid = true) :
    ∃ r ∈ db.sspEvents,
      r.search_sessions_propositions_id = relId ∧ r.event_id = eid := by
  rw [List.elem_iff, List.mem_map] at h
  obtain ⟨e, he, heid⟩ := h
  rw [events_of_relation, List.mem_filter, List.any_eq_true] at he
  obtain ⟨-, r, hrmem, hrp⟩ := he
  rw [Bool.and_eq_true, beq_iff_eq, beq_iff_eq] at hrp
  exact ⟨r, hrmem, hrp.1, heid ▸ hrp.2⟩

theorem contains_relEventIds_of_row {db : DB} {relId eid : Nat}
    (hex : ∃ e ∈ db.events, e.id = eid)
    (hr : ∃ r ∈ db.sspEvents,
      r.search_sessions_propositions_id = relId ∧ r.event_id = eid) :
    ((events_of_relation db relId).map (fun e => e.id)).contains eid = true := by
  obtain ⟨e, hemem, heid⟩ := hex
  obtain ⟨r, hrmem, h1, h2⟩ := hr
  rw [List.elem_iff, List.mem_map]
  refine ⟨e, ?_, heid⟩
  rw [events_of_relation, List.mem_filter, List.any_eq_true]
  exact ⟨hemem, r, hrmem, by simp [h1, h2, heid]⟩

/-- Claim C4: when a session is closed as successful with a proposition that
is part of it, a `contracted` event is recorded for the session-proposition
relation exactly once: the `Event` row named "contracted" is created if it
does not exist; the join row linking the relation to that event is added only
when no such link existed (its count becomes 1 from 0 and is unchanged
otherwise), so repeating the recording for the same proposition can never
produce a duplicate link. -/
theorem close_records_contracted_once (db : DB) (sid : Nat) (s : SessionRow)
    (payload : CloseSearchSessionRequest) (i : Int) (prop : PropRow) (rel : SSPRow)
    (hWF : WellFormed db)
    (hs : get_session db sid = some s) (hopen : s.is_closed = false)
    (hsucc : payload.is_successful = true)
    (hpid : payload.proposition_internal_id = some i) (hnz : i ≠ 0)
    (hprop : get_proposition_by_internal_id db i = some prop)
    (hrel : db.ssProps.find?
      (fun r => r.search_session_id == sid && r.proposition_id == prop.id) = some rel) :
    ∃ db1, close_session db sid payload = .ok db1 ∧
      (∀ ev, get_event_by_name db "contracted" = some ev →
        db1.events = db.events ∧
        linkCount db1 rel.id ev.id =
          (if linkCount db rel.id ev.id = 0 then 1 else linkCount db rel.id ev.id)) ∧
      (get_event_by_name db "contracted" = none →
        db1.events = db.events ++ [{ id := db.nextEventId, name := "contracted" }] ∧
        linkCount db rel.id db.nextEventId = 0 ∧
        linkCount db1 rel.id db.nextEventId = 1) := by
  obtain ⟨⟨-, -, -, -, -, -, hEvFresh⟩, -, -, -, -, hRefSSPE⟩ := hWF
  have hcl : is_session_closed db sid = some false := by
    rw [is_session_closed]
    rw [show db.sessions.find? (fun r => r.id == sid) = some s from hs]
    rw [Option.map_some', hopen]
  have htr : optIntTruthy payload.proposition_internal_id = true := by
    simp [optIntTruthy, hpid, hnz]
  have hgetd : payload.proposition_internal_id.getD 0 = i := by rw [hpid]; rfl
  refine ⟨dal_update_close (record_contracted_event db rel.id) sid payload, ?_, ?_, ?_⟩
  · simp [close_session, hs, hcl, hsucc, htr, hgetd, hprop, hrel]
  · intro ev hfound
    have hevmem : ev ∈ db.events := List.mem_of_find?_eq_some hfound
    have hlc :
        linkCount (dal_update_close (record_contracted_event db rel.id) sid payload)
          rel.id ev.id = linkCount (record_contracted_event db rel.id) rel.id ev.id := rfl
    have hevs :
        (dal_update_close (record_contracted_event db rel.id) sid payload).events =
          (record_contracted_event db rel.id).events := rfl
    rw [hlc, hevs, rce_some db rel.id ev hfound]
    by_cases hc : linkCount db rel.id ev.id = 0
    · have hcont :
          ((events_of_relation db rel.id).map (fun e => e.id)).contains ev.id = false := by
        cases hb : ((events_of_relation db rel.id).map (fun e => e.id)).contains ev.id
        · rfl
        · exact absurd ((linkCount_ne_zero_iff db rel.id ev.id).mpr
            (contains_relEventIds_imp hb)) (not_not.mpr hc)
      rw [hcont]
      simp only [Bool.not_false, if_true]
      refine ⟨trivial, ?_⟩
      rw [if_pos hc]
      simp only [linkCount, List.filter_append, List.length_append] at hc ⊢
      rw [hc]
      simp
    · have hcont :
          ((events_of_relation db rel.id).map (fun e => e.id)).contains ev.id = true :=
        contains_relEventIds_of_row ⟨ev, hevmem, rfl⟩
          ((linkCount_ne_zero_iff db rel.id ev.id).mp hc)
      rw [hcont]
      simp only [Bool.not_true, Bool.false_eq_true, if_false]
      exact ⟨trivial, by rw [if_neg hc]⟩
  · intro hfound
    have hc : linkCount db rel.id db.nextEventId = 0 := by
      by_contra hne
      obtain ⟨r, hrmem, -, h2⟩ := (linkCount_ne_zero_iff db rel.id db.nextEventId).mp hne
      obtain ⟨-, e, hemem, heid⟩ := hRefSSPE r hrmem
      have := hEvFresh e hemem
      omega
    have hcont :
        ((events_of_relation db rel.id).map (fun e => e.id)).contains db.nextEventId =
          false := by
      cases hb : ((events_of_relation db rel.id).map (fun e => e.id)).contains db.nextEventId
      · rfl
      · obtain ⟨r, hrmem, -, h2⟩ := contains_relEventIds_imp hb
        obtain ⟨-, e, hemem, heid⟩ := hRefSSPE r hrmem
        have := hEvFresh e hemem
        omega
    have hlc :
        linkCount (dal_update_close (record_contracted_event db rel.id) sid payload)
          rel.id db.nextEventId =
          linkCount (record_contracted_event db rel.id) rel.id db.nextEventId := rfl
    have hevs :
        (dal_update_close (record_contracted_event db rel.id) sid payload).events =
          (record_contracted_event db rel.id).events := rfl
    rw [hlc, hevs, rce_none db rel.id hfound, hcont]
    simp only [Bool.not_false, if_true]
    refine ⟨trivial, hc, ?_⟩
    simp only [linkCount, List.filter_append, List.length_append] at hc ⊢
    rw [hc]
    simp

set_option maxRecDepth 100000 in
/-- The contracted-event theorem applied to `dbW`, its open session, the
linked proposition 10 and its relation row. -/
theorem close_records_contracted_once_witness :
    WellFormed dbW ∧ get_session dbW 1 = some sOpenW ∧ sOpenW.is_closed = false ∧
      plcW.is_successful = true ∧ plcW.proposition_internal_id = some 10 ∧
      (10 : Int) ≠ 0 ∧
      get_proposition_by_internal_id dbW 10 = some { id := 1, internal_id := 10 } ∧
      dbW.ssProps.find?
        (fun r => r.search_session_id == 1 &&
          r.proposition_id == ({ id := 1, internal_id := 10 } : PropRow).id) =
        some { id := 1, search_session_id := 1, proposition_id := 1 } ∧
      (∃ db1, close_session dbW 1 plcW = .ok db1 ∧
        (∀ ev, get_event_by_name dbW "contracted" = some ev →
          db1.events = dbW.events ∧
          linkCount db1 ({ id := 1, search_session_id := 1, proposition_id := 1 } : SSPRow).id ev.id =
            (if linkCount dbW ({ id := 1, search_session_id := 1, proposition_id := 1 } : SSPRow).id ev.id = 0 then 1
              else linkCount dbW ({ id := 1, search_session_id := 1, proposition_id := 1 } : SSPRow).id ev.id)) ∧
        (get_event_by_name dbW "contracted" = none →
          db1.events = dbW.events ++ [{ id := dbW.nextEventId, name := "contracted" }] ∧
          linkCount dbW ({ id := 1, search_session_id := 1, proposition_id := 1 } : SSPRow).id dbW.nextEventId = 0 ∧
          linkCount db1 ({ id := 1, search_session_id := 1, proposition_id := 1 } : SSPRow).id dbW.nextEventId = 1)) :=
  ⟨by decide, by decide, by decide, by decide, by decide, by decide, by decide, by decide,
    close_records_contracted_once dbW 1 sOpenW plcW 10 { id := 1, internal_id := 10 }
      { id := 1, search_session_id := 1, proposition_id := 1 }
      (by decide) (by decide) (by decide) (by decide) (by decide) (by decide)
      (by decide) (by decide)⟩

/-! ### Claim C1 -/

/-- Claim C1 (amended): for every payload whose dispatcher exists and whose
dispatcher id is nonzero (the duplicate lookup is skipped for the falsy id 0),
the create handler preserves the one-active-session invariant: when an active
(non-closed) session with the same dispatcher and serialized filter signature
exists it raises HTTP 400 with detail "A session with these filters has
already been created." and creates nothing; otherwise it creates exactly one
new session carrying the payload fields and the signature. -/
theorem create_unique_active_session (db : DB) (now : Nat)
    (payload : SearchSessionRequest)
    (hdisp : check_if_exists db payload.dispatcher_id = true)
    (hnz : payload.dispatcher_id ≠ 0) :
    ((∃ s ∈ db.sessions, s.dispatcher_id = some payload.dispatcher_id ∧
        s.filters_string = some (filters_data_to_string payload.filters) ∧
        s.is_closed = false) →
      create db now payload =
        .error (.httpError 400
          "A session with these filters has already been created.")) ∧
    ((¬ ∃ s ∈ db.sessions, s.dispatcher_id = some payload.dispatcher_id ∧
        s.filters_string = some (filters_data_to_string payload.filters) ∧
        s.is_closed = false) →
      ∃ db1 sid, create db now payload = .ok (db1, sid) ∧
        db1.sessions = db.sessions ++
          [{ id := db.nextSessionId
             dispatcher_id := some payload.dispatcher_id
             created_at := payload.created_at.getD now
             updated_at := now
             extra_load := false
             is_successful := false
             reason := none
             is_closed := payload.is_closed
             type := payload.type
             filters_string := some (filters_data_to_string payload.filters) }]) := by
  have hgbf : get_by_filters db payload.dispatcher_id
      (some (filters_data_to_string payload.filters)) =
      some (db.sessions.filter
        (fun s => s.dispatcher_id == some payload.dispatcher_id &&
          s.filters_string == some (filters_data_to_string payload.filters))) := by
    rw [get_by_filters, if_pos hnz]
    rw [if_pos (filters_data_to_string_ne_empty payload.filters)]
  constructor
  · intro ⟨s, hsmem, hd, hf, hc⟩
    have hfind : ∃ d, (db.sessions.filter
        (fun s => s.dispatcher_id == some payload.dispatcher_id &&
          s.filters_string == some (filters_data_to_string payload.filters))).find?
        (fun s => !s.is_closed) = some d := by
      rw [← Option.isSome_iff_exists, List.find?_isSome]
      refine ⟨s, List.mem_filter.mpr ⟨hsmem, by simp [hd, hf]⟩, by simp [hc]⟩
    obtain ⟨d, hd'⟩ := hfind
    simp [create, hdisp, hgbf, hd']
  · intro hno
    have hfind : (db.sessions.filter
        (fun s => s.dispatcher_id == some payload.dispatcher_id &&
          s.filters_string == some (filters_data_to_string payload.filters))).find?
        (fun s => !s.is_closed) = none := by
      rw [List.find?_eq_none]
      intro x hx
      rw [List.mem_filter, Bool.and_eq_true, beq_iff_eq, beq_iff_eq] at hx
      intro hopen
      rw [Bool.not_eq_eq_eq_not, Bool.not_true] at hopen
      exact hno ⟨x, hx.1, hx.2.1, hx.2.2, hopen⟩
    refine ⟨(dal_create db now
        { dispatcher_id := payload.dispatcher_id, created_at := payload.created_at,
          is_closed := payload.is_closed, type := payload.type,
          filters := some payload.filters,
          filters_string := some (filters_data_to_string payload.filters) }).1,
      (dal_create db now
        { dispatcher_id := payload.dispatcher_id, created_at := payload.created_at,
          is_closed := payload.is_closed, type := payload.type,
          filters := some payload.filters,
          filters_string := some (filters_data_to_string payload.filters) }).2, ?_, ?_⟩
    · simp [create, hdisp, hgbf, hfind]
    · rfl

set_option maxRecDepth 1000000 in
/-- Claim C1 counterexample: dispatcher 0 exists and already has an active
session with exactly the signature of the payload, yet `create` does not
raise the 400 — it succeeds and creates a second active duplicate, because
`get_by_filters` treats the falsy dispatcher id 0 as no filter and returns
`None`. -/
theorem create_zero_dispatcher_counterexample :
    check_if_exists dbD0 pc0.dispatcher_id = true ∧
    (∃ s ∈ dbD0.sessions, s.dispatcher_id = some pc0.dispatcher_id ∧
      s.filters_string = some (filters_data_to_string pc0.filters) ∧
      s.is_closed = false) ∧
    create dbD0 5 pc0 ≠
      .error (.httpError 400 "A session with these filters has already been created.") ∧
    (create dbD0 5 pc0).isOk = true := by
  refine ⟨?_, ?_, ?_, ?_⟩ <;> decide

set_option maxRecDepth 100000 in
/-- The amended create-uniqueness theorem applied to `dbW` and the dispatcher-1
payload. -/
theorem create_unique_active_session_witness :
    check_if_exists dbW pcW.dispatcher_id = true ∧ pcW.dispatcher_id ≠ 0 ∧
      (((∃ s ∈ dbW.sessions, s.dispatcher_id = some pcW.dispatcher_id ∧
          s.filters_string = some (filters_data_to_string pcW.filters) ∧
          s.is_closed = false) →
        create dbW 5 pcW =
          .error (.httpError 400
            "A session with these filters has already been created.")) ∧
      ((¬ ∃ s ∈ dbW.sessions, s.dispatcher_id = some pcW.dispatcher_id ∧
          s.filters_string = some (filters_data_to_string pcW.filters) ∧
          s.is_closed = false) →
        ∃ db1 sid, create dbW 5 pcW = .ok (db1, sid) ∧
          db1.sessions = dbW.sessions ++
            [{ id := dbW.nextSessionId
               dispatcher_id := some pcW.dispatcher_id
               created_at := pcW.created_at.getD 5
               updated_at := 5
               extra_load := false
               is_successful := false
               reason := none
               is_closed := pcW.is_closed
               type := pcW.type
               filters_string := some (filters_data_to_string pcW.filters) }])) :=
  ⟨by decide, by decide, create_unique_active_session dbW 5 pcW (by decide) (by decide)⟩

/-! ### Claim C9 -/

theorem propRowsFrom_internal_ids :
    ∀ (qs : List PropositionRequest) (n : Nat),
      (propRowsFrom qs n).map (fun p => p.internal_id) =
        qs.map (fun q => q.internal_id)
  | [], _ => rfl
  | q :: qs, n => by
    rw [propRowsFrom, List.map_cons, List.map_cons, propRowsFrom_internal_ids qs (n + 1)]

theorem propRowsFrom_id_ge :
    ∀ {qs : List PropositionRequest} {n : Nat} {p : PropRow},
      p ∈ propRowsFrom qs n → n ≤ p.id
  | [], _, _, hp => absurd hp (List.not_mem_nil _)
  | q :: qs, n, p, hp => by
    rw [propRowsFrom] at hp
    rcases List.mem_cons.mp hp with h | h
    · rw [h]
    · have := propRowsFrom_id_ge h
      omega

theorem propRowsFrom_exists :
    ∀ {qs : List PropositionRequest} (n : Nat) {q : PropositionRequest}, q ∈ qs →
      ∃ p ∈ propRowsFrom qs n, p.internal_id = q.internal_id
  | [], _, _, hq => absurd hq (List.not_mem_nil _)
  | q0 :: qs, n, q, hq => by
    rw [propRowsFrom]
    rcases List.mem_cons.mp hq with h | h
    · exact ⟨{ id := n, internal_id := q0.internal_id }, List.mem_cons_self _ _, by rw [h]⟩
    · obtain ⟨p, hp, he⟩ := propRowsFrom_exists (n + 1) h
      exact ⟨p, List.mem_cons_of_mem _ hp, he⟩

theorem linkRowsFrom_mem :
    ∀ {pids : List Nat} {n sid : Nat} {r : SSPRow}, r ∈ linkRowsFrom pids n sid →
      r.search_session_id = sid ∧ r.proposition_id ∈ pids
  | [], _, _, _, hr => absurd hr (List.not_mem_nil _)
  | pid :: pids, n, sid, r, hr => by
    rw [linkRowsFrom] at hr
    rcases List.mem_cons.mp hr with h | h
    · rw [h]
      exact ⟨rfl, List.mem_cons_self _ _⟩
    · obtain ⟨h1, h2⟩ := linkRowsFrom_mem h
      exact ⟨h1, List.mem_cons_of_mem _ h2⟩

theorem linkRowsFrom_exists :
    ∀ {pids : List Nat} (n sid : Nat) {pid : Nat}, pid ∈ pids →
      ∃ r ∈ linkRowsFrom pids n sid,
        r.search_session_id = sid ∧ r.proposition_id = pid
  | [], _, _, _, hp => absurd hp (List.not_mem_nil _)
  | p0 :: pids, n, sid, pid, hp => by
    rw [linkRowsFrom]
    rcases List.mem_cons.mp hp with h | h
    · exact ⟨{ id := n, search_session_id := sid, proposition_id := p0 },
        List.mem_cons_self _ _, rfl, h.symm⟩
    · obtain ⟨r, hr, h1, h2⟩ := linkRowsFrom_exists (n + 1) sid h
      exact ⟨r, List.mem_cons_of_mem _ hr, h1, h2⟩

theorem mem_key_inj {α : Type _} (f : α → Nat) {l : List α}
    (hnd : (l.map f).Nodup) {a b : α} (ha : a ∈ l) (hb : b ∈ l) (he : f a = f b) :
    a = b := by
  have h1 := find_by_key_eq f hnd ha
  have h2 := find_by_key_eq f hnd hb
  rw [he] at h1
  rw [h1] at h2
  exact Option.some_inj.mp h2

/-- Claim C9: the DAL add-propositions operation deduplicates by
`internal_id`: an input proposition whose `internal_id` already has a row
never causes a second row (the per-id row count is unchanged); an existing
proposition already linked to the target session is not linked again (the
link count for the pair is unchanged); the rows that appear are exactly for
input ids absent from the database, and each new row is linked to the
session; afterwards the session's `updated_at` is the current time. -/
theorem add_propositions_dedup (db : DB) (now : Nat)
    (props : List PropositionRequest) (sid : Nat) (sess : SessionRow)
    (hWF : WellFormed db) (hs : get_session db sid = some sess) :
    (∀ i : Int, (∃ p ∈ db.propositions, p.internal_id = i) →
      ((dal_add_propositions db now props sid).propositions.filter
        (fun p => p.internal_id == i)).length =
      (db.propositions.filter (fun p => p.internal_id == i)).length) ∧
    (∀ p ∈ db.propositions,
      (∃ r ∈ db.ssProps, r.search_session_id = sid ∧ r.proposition_id = p.id) →
      ((dal_add_propositions db now props sid).ssProps.filter
        (fun r => r.search_session_id == sid && r.proposition_id == p.id)).length =
      (db.ssProps.filter
        (fun r => r.search_session_id == sid && r.proposition_id == p.id)).length) ∧
    (∀ p ∈ (dal_add_propositions db now props sid).propositions,
      p ∉ db.propositions →
      p.internal_id ∈ props.map (fun q => q.internal_id) ∧
      (∀ q ∈ db.propositions, q.internal_id ≠ p.internal_id) ∧
      ∃ r ∈ (dal_add_propositions db now props sid).ssProps,
        r.search_session_id = sid ∧ r.proposition_id = p.id) ∧
    (∀ q ∈ props, (∀ p ∈ db.propositions, p.internal_id ≠ q.internal_id) →
      ∃ p ∈ (dal_add_propositions db now props sid).propositions,
        p ∉ db.propositions ∧ p.internal_id = q.internal_id) ∧
    (∃ s1 ∈ (dal_add_propositions db now props sid).sessions,
      s1.id = sid ∧ s1.updated_at = now) := by
  obtain ⟨⟨-, -, -, hPropFresh, -, -, -⟩, ⟨-, -, -, hPropNodup, -, -, -⟩, -⟩ := hWF
  have hsid : sess.id = sid := by
    have := List.find?_some hs
    rwa [beq_iff_eq] at this
  have hsessmem : sess ∈ db.sessions := List.mem_of_find?_eq_some hs
  have heq : dal_add_propositions db now props sid =
      { db with
        propositions := db.propositions ++
          propRowsFrom (newInputProps db props) db.nextPropId
        ssProps := db.ssProps ++
          linkRowsFrom ((toLinkProps db props sess.id).map (fun p => p.id))
            db.nextSSPId sess.id ++
          linkRowsFrom ((propRowsFrom (newInputProps db props) db.nextPropId).map
              (fun p => p.id))
            (db.nextSSPId + (toLinkProps db props sess.id).length) sess.id
        sessions := db.sessions.map
          (fun s => if s.id == sess.id then { s with updated_at := now } else s)
        nextPropId := db.nextPropId +
          (propRowsFrom (newInputProps db props) db.nextPropId).length
        nextSSPId := db.nextSSPId + (toLinkProps db props sess.id).length +
          (propRowsFrom (newInputProps db props) db.nextPropId).length } := by
    simp only [dal_add_propositions, hs]
  have hnew_internal :
      ∀ {p : PropRow}, p ∈ propRowsFrom (newInputProps db props) db.nextPropId →
        ∃ q ∈ newInputProps db props, q.internal_id = p.internal_id := by
    intro p hp
    have : p.internal_id ∈
        (propRowsFrom (newInputProps db props) db.nextPropId).map
          (fun r => r.internal_id) := List.mem_map_of_mem _ hp
    rw [propRowsFrom_internal_ids] at this
    exact List.mem_map.mp this
  have hnew_absent :
      ∀ {q : PropositionRequest}, q ∈ newInputProps db props →
        ∀ p0 ∈ db.propositions, p0.internal_id ≠ q.internal_id := by
    intro q hq p0 hp0 he
    rw [newInputProps, List.mem_filter] at hq
    obtain ⟨hqprops, hqcond⟩ := hq
    have hp0ex : p0 ∈ existedProps db props := by
      rw [existedProps, List.mem_filter]
      refine ⟨hp0, ?_⟩
      rw [List.elem_iff, he]
      exact List.mem_map_of_mem _ hqprops
    have : ((existedProps db props).map (fun p => p.internal_id)).contains
        q.internal_id = true := by
      rw [List.elem_iff, ← he]
      exact List.mem_map_of_mem _ hp0ex
    rw [this] at hqcond
    simp at hqcond
  refine ⟨?_, ?_, ?_, ?_, ?_⟩
  · intro i ⟨p0, hp0, hp0i⟩
    rw [heq]
    show ((db.propositions ++ _).filter _).length = _
    rw [List.filter_append, List.length_append]
    have h0 : ((propRowsFrom (newInputProps db props) db.nextPropId).filter
        (fun p => p.internal_id == i)).length = 0 := by
      rw [List.length_eq_zero, List.filter_eq_nil_iff]
      intro p hp hbeq
      rw [beq_iff_eq] at hbeq
      obtain ⟨q, hq, hqe⟩ := hnew_internal hp
      exact hnew_absent hq p0 hp0 (by rw [hp0i, ← hbeq, hqe])
    omega
  · intro p hp ⟨r0, hr0, hr01, hr02⟩
    rw [heq]
    show ((db.ssProps ++ _ ++ _).filter _).length = _
    rw [List.filter_append, List.filter_append, List.length_append, List.length_append]
    have hlinked : sid ∈ sessions_of_proposition db p.id := by
      rw [sessions_of_proposition]
      have : sess ∈ db.sessions.filter
          (fun s => db.ssProps.any
            (fun r => r.search_session_id == s.id && r.proposition_id == p.id)) := by
        rw [List.mem_filter]
        refine ⟨hsessmem, ?_⟩
        rw [List.any_eq_true]
        exact ⟨r0, hr0, by simp [hr01, hr02, hsid]⟩
      exact List.mem_map.mpr ⟨sess, this, hsid⟩
    have h1 : ((linkRowsFrom ((toLinkProps db props sess.id).map (fun p => p.id))
        db.nextSSPId sess.id).filter
        (fun r => r.search_session_id == sid && r.proposition_id == p.id)).length = 0 := by
      rw [List.length_eq_zero, List.filter_eq_nil_iff]
      intro r hr hbeq
      rw [Bool.and_eq_true, beq_iff_eq, beq_iff_eq] at hbeq
      obtain ⟨-, hrpid⟩ := linkRowsFrom_mem hr
      obtain ⟨p2, hp2, hp2id⟩ := List.mem_map.mp hrpid
      rw [toLinkProps, List.mem_filter] at hp2
      obtain ⟨hp2ex, hp2cond⟩ := hp2
      rw [existedProps, List.mem_filter] at hp2ex
      have hp2p : p2 = p := mem_key_inj (fun p => p.id) hPropNodup hp2ex.1 hp
        (show p2.id = p.id by rw [hp2id, hbeq.2])
      rw [hp2p, hsid] at hp2cond
      have : (sessions_of_proposition db p.id).contains sid = true := by
        rw [List.elem_iff]
        exact hlinked
      rw [this] at hp2cond
      simp at hp2cond
    have h2 : ((linkRowsFrom ((propRowsFrom (newInputProps db props)
        db.nextPropId).map (fun p => p.id))
        (db.nextSSPId + (toLinkProps db props sess.id).length) sess.id).filter
        (fun r => r.search_session_id == sid && r.proposition_id == p.id)).length = 0 := by
      rw [List.length_eq_zero, List.filter_eq_nil_iff]
      intro r hr hbeq
      rw [Bool.and_eq_true, beq_iff_eq, beq_iff_eq] at hbeq
      obtain ⟨-, hrpid⟩ := linkRowsFrom_mem hr
      obtain ⟨p2, hp2, hp2id⟩ := List.mem_map.mp hrpid
      have := propRowsFrom_id_ge hp2
      have := hPropFresh p hp
      omega
    omega
  · intro p hp hpnot
    rw [heq] at hp
    have hp' : p ∈ db.propositions ++
        propRowsFrom (newInputProps db props) db.nextPropId := hp
    rcases List.mem_append.mp hp' with h | h
    · exact absurd h hpnot
    · obtain ⟨q, hq, hqe⟩ := hnew_internal h
      have hqprops : q ∈ props := by
        rw [newInputProps, List.mem_filter] at hq
        exact hq.1
      refine ⟨?_, ?_, ?_⟩
      · rw [← hqe]
        exact List.mem_map_of_mem _ hqprops
      · intro q0 hq0 he
        exact hnew_absent hq q0 hq0 (by rw [he, hqe])
      · have hpid : p.id ∈ (propRowsFrom (newInputProps db props)
            db.nextPropId).map (fun r => r.id) := List.mem_map_of_mem _ h
        obtain ⟨r, hr, hr1, hr2⟩ := linkRowsFrom_exists
          (db.nextSSPId + (toLinkProps db props sess.id).length) sess.id hpid
        refine ⟨r, ?_, by rw [hr1, hsid], hr2⟩
        rw [heq]
        show r ∈ db.ssProps ++ _ ++ _
        exact List.mem_append_right _ hr
  · intro q hq habsent
    have hqnew : q ∈ newInputProps db props := by
      rw [newInputProps, List.mem_filter]
      refine ⟨hq, ?_⟩
      cases hb : ((existedProps db props).map (fun p => p.internal_id)).contains
          q.internal_id
      · rfl
      · rw [List.elem_iff, List.mem_map] at hb
        obtain ⟨p0, hp0, hp0e⟩ := hb
        rw [existedProps, List.mem_filter] at hp0
        exact absurd hp0e (habsent p0 hp0.1)
    obtain ⟨p, hpmem, hpe⟩ := propRowsFrom_exists db.nextPropId hqnew
    refine ⟨p, ?_, ?_, hpe⟩
    · rw [heq]
      show p ∈ db.propositions ++ _
      exact List.mem_append_right _ hpmem
    · intro hpin
      have := hPropFresh p hpin
      have := propRowsFrom_id_ge hpmem
      omega
  · rw [heq]
    show ∃ s1 ∈ db.sessions.map
      (fun s => if s.id == sess.id then { s with updated_at := now } else s),
      s1.id = sid ∧ s1.updated_at = now
    refine ⟨(fun s : SessionRow =>
        if s.id == sess.id then { s with updated_at := now } else s) sess,
      List.mem_map_of_mem _ hsessmem, ?_, ?_⟩
    · simp [hsid]
    · simp

set_option maxRecDepth 100000 in
/-- The dedup theorem applied to `dbW`, its open session and one input
proposition with a fresh `internal_id`. -/
theorem add_propositions_dedup_witness :
    WellFormed dbW ∧ get_session dbW 1 = some sOpenW ∧
      ((∀ i : Int, (∃ p ∈ dbW.propositions, p.internal_id = i) →
        ((dal_add_propositions dbW 7 [{ internal_id := 11 }] 1).propositions.filter
          (fun p => p.internal_id == i)).length =
        (dbW.propositions.filter (fun p => p.internal_id == i)).length) ∧
      (∀ p ∈ dbW.propositions,
        (∃ r ∈ dbW.ssProps, r.search_session_id = 1 ∧ r.proposition_id = p.id) →
        ((dal_add_propositions dbW 7 [{ internal_id := 11 }] 1).ssProps.filter
          (fun r => r.search_session_id == 1 && r.proposition_id == p.id)).length =
        (dbW.ssProps.filter
          (fun r => r.search_session_id == 1 && r.proposition_id == p.id)).length) ∧
      (∀ p ∈ (dal_add_propositions dbW 7 [{ internal_id := 11 }] 1).propositions,
        p ∉ dbW.propositions →
        p.internal_id ∈ ([{ internal_id := 11 }] : List PropositionRequest).map
          (fun q => q.internal_id) ∧
        (∀ q ∈ dbW.propositions, q.internal_id ≠ p.internal_id) ∧
        ∃ r ∈ (dal_add_propositions dbW 7 [{ internal_id := 11 }] 1).ssProps,
          r.search_session_id = 1 ∧ r.proposition_id = p.id) ∧
      (∀ q ∈ ([{ internal_id := 11 }] : List PropositionRequest),
        (∀ p ∈ dbW.propositions, p.internal_id ≠ q.internal_id) →
        ∃ p ∈ (dal_add_propositions dbW 7 [{ internal_id := 11 }] 1).propositions,
          p ∉ dbW.propositions ∧ p.internal_id = q.internal_id) ∧
      (∃ s1 ∈ (dal_add_propositions dbW 7 [{ internal_id := 11 }] 1).sessions,
        s1.id = 1 ∧ s1.updated_at = 7)) :=
  ⟨by decide, by decide,
    add_propositions_dedup dbW 7 [{ internal_id := 11 }] 1 sOpenW (by decide) (by decide)⟩

/-! ### Claim C10 -/

set_option maxRecDepth 1000000 in
/-- Claim C10 counterexample: two payloads equal except for the order of the
locations list, every location with non-null address and scope, on which
`filters_data_to_string` differs: the two locations share the sort key
`("a", "s")`, the stable sort keeps them in input order, and their radii
differ, so the serializations differ. -/
theorem filters_string_order_counterexample :
    fdAB.locations.Perm fdBA.locations ∧
    ({ fdAB with locations := [] } : FiltersData) = { fdBA with locations := [] } ∧
    (∀ l ∈ fdAB.locations, l.address ≠ none ∧ l.scope ≠ none) ∧
    filters_data_to_string fdAB ≠ filters_data_to_string fdBA := by
  refine ⟨?_, ?_, ?_, ?_⟩ <;> decide

/-- Claim C10 (amended): for two filter payloads that are equal except for the
order of the locations list, where every location has non-null address and
scope and the `(address, scope)` keys are pairwise distinct,
`filters_data_to_string` returns the same string: the sort by `(address,
scope)` makes the filter signature invariant under permutation of locations
with distinct keys.  (With duplicate keys the stable sort preserves the input
order of the tied locations, so permutations of ties may serialize
differently.) -/
theorem filters_string_locations_order_invariant (fd1 fd2 : FiltersData)
    (hfields : ({ fd1 with locations := [] } : FiltersData) =
      { fd2 with locations := [] })
    (hperm : fd1.locations.Perm fd2.locations)
    (hnn : ∀ l ∈ fd1.locations, l.address ≠ none ∧ l.scope ≠ none)
    (hkeys : (fd1.locations.map locKey).Nodup) :
    filters_data_to_string fd1 = filters_data_to_string fd2 := by
  have hkeys2 : (fd2.locations.map locKey).Nodup :=
    ((hperm.map locKey).nodup_iff).mp hkeys
  have hsort : sortLocations fd1.locations = sortLocations fd2.locations := by
    haveI : IsAntisymm LocationData
        (fun a b => locKeyLe a b ∧ locKey a ≠ locKey b) :=
      ⟨fun a b hab hba => absurd (locKey_eq_of_not_lt hba.1 hab.1) hab.2⟩
    have hp1 : List.Pairwise (fun a b => locKey a ≠ locKey b)
        (sortLocations fd1.locations) :=
      ((List.perm_insertionSort locKeyLe fd1.locations).pairwise_iff
        (fun h => Ne.symm h)).mpr (List.pairwise_map.mp hkeys)
    have hp2 : List.Pairwise (fun a b => locKey a ≠ locKey b)
        (sortLocations fd2.locations) :=
      ((List.perm_insertionSort locKeyLe fd2.locations).pairwise_iff
        (fun h => Ne.symm h)).mpr (List.pairwise_map.mp hkeys2)
    have hs1 : List.Sorted (fun a b => locKeyLe a b ∧ locKey a ≠ locKey b)
        (sortLocations fd1.locations) :=
      (List.sorted_insertionSort locKeyLe fd1.locations).and hp1
    have hs2 : List.Sorted (fun a b => locKeyLe a b ∧ locKey a ≠ locKey b)
        (sortLocations fd2.locations) :=
      (List.sorted_insertionSort locKeyLe fd2.locations).and hp2
    have hchain : (sortLocations fd1.locations).Perm (sortLocations fd2.locations) :=
      (List.perm_insertionSort locKeyLe fd1.locations).trans
        (hperm.trans (List.perm_insertionSort locKeyLe fd2.locations).symm)
    exact List.eq_of_perm_of_sorted hchain hs1 hs2
  obtain ⟨vt, vs, mn, mx, dd, mp, mr, l1⟩ := fd1
  obtain ⟨vt2, vs2, mn2, mx2, dd2, mp2, mr2, l2⟩ := fd2
  simp only [FiltersData.mk.injEq] at hfields
  obtain ⟨h1, h2, h3, h4, h5, h6, h7, -⟩ := hfields
  subst h1 h2 h3 h4 h5 h6 h7
  exact congrArg (fun L => renderFilters ⟨vt, vs, mn, mx, dd, mp, mr, L⟩) hsort

/-- The order-invariance theorem applied to a concrete pair of payloads with
distinct keys. -/
theorem filters_string_locations_order_invariant_witness :
    ({ fdTwo with locations := [] } : FiltersData) =
        { fdTwoSwap with locations := [] } ∧
      fdTwo.locations.Perm fdTwoSwap.locations ∧
      (∀ l ∈ fdTwo.locations, l.address ≠ none ∧ l.scope ≠ none) ∧
      (fdTwo.locations.map locKey).Nodup ∧
      filters_data_to_string fdTwo = filters_data_to_string fdTwoSwap :=
  ⟨by decide, by decide, by decide, by decide,
    filters_string_locations_order_invariant fdTwo fdTwoSwap (by decide) (by decide)
      (by decide) (by decide)⟩
